import Mathlib

/-!
# Indentation guesser (`indentationGuesser.js`)

A shallow embedding of `spacesDiff` and `guessIndentation` from
`src/BlazorBits.Website/wwwroot/monaco-editor/esm/vs/editor/common/model/indentationGuesser.js`.

Conventions of the embedding:

* a JavaScript string is the list of its UTF-16 code units (`List Nat`);
* `charCodeAt` past the end of a string is `NaN`, embedded as `none`;
* all counters are natural numbers (they only ever count up from `0`);
* an entry of the array `spacesDiffCount` is a number, or `none` where JavaScript holds no
  number (a hole, `undefined` or `NaN`);
* the tab-size score, which the source holds as `0.1 * linesCount` or as a histogram count,
  is kept multiplied by ten (see `tabSizeStep`).
-/

namespace IndentationGuesser

/-! ## JavaScript primitives -/

/-- JavaScript `s.charCodeAt(i)`: the code unit at index `i`, or `NaN` (`none`) past the end. -/
def charCodeAt (s : List Nat) (i : Nat) : Option Nat := s[i]?

/-- JavaScript `x !== y` on two results of `charCodeAt`: `NaN` differs from everything,
itself included. -/
def strictNe : Option Nat → Option Nat → Bool
  | some x, some y => x != y
  | _, _ => true

/-- JavaScript `Math.abs(x - y)` on two counters. -/
def absDiff (x y : Nat) : Nat := Int.natAbs ((x : Int) - (y : Int))

/-! ## `spacesDiff` (source lines 9-57) -/

/-- First loop of `spacesDiff` (lines 15-21): starting at `i`, advance while `i < aLength`,
`i < bLength` and the two code units agree; the value of `i` when the loop is left.
The first argument bounds the number of iterations. -/
def commonLoop (a : List Nat) (aLength : Nat) (b : List Nat) (bLength : Nat) : Nat → Nat → Nat
  | 0, i => i
  | fuel + 1, i =>
    if i < aLength ∧ i < bLength then
      if strictNe (charCodeAt a i) (charCodeAt b i) then i
      else commonLoop a aLength b bLength fuel (i + 1)
    else i

/-- Second and third loop of `spacesDiff` (lines 22-41): for `j` from `i` to `len - 1`, a code
unit equal to 32 counts as a space and anything else as a tab. The pair is
`(spacesCnt, tabsCount)`. -/
def countLoop (s : List Nat) (i len : Nat) : Nat × Nat :=
  (List.range' i (len - i)).foldl
    (fun acc j => if charCodeAt s j = some 32 then (acc.1 + 1, acc.2) else (acc.1, acc.2 + 1))
    (0, 0)

/-- The function `spacesDiff(a, aLength, b, bLength)` of the source. -/
def spacesDiff (a : List Nat) (aLength : Nat) (b : List Nat) (bLength : Nat) : Nat :=
  let i := commonLoop a aLength b bLength (min aLength bLength) 0
  let aCnt := countLoop a i aLength
  let bCnt := countLoop b i bLength
  if aCnt.1 > 0 ∧ aCnt.2 > 0 then 0
  else if bCnt.1 > 0 ∧ bCnt.2 > 0 then 0
  else
    let tabsDiff := absDiff aCnt.2 bCnt.2
    let spacesDiff := absDiff aCnt.1 bCnt.1
    if tabsDiff = 0 then spacesDiff
    else if spacesDiff % tabsDiff = 0 then spacesDiff / tabsDiff
    else 0

/-! ## `guessIndentation` (source lines 58-146) -/

/-- The text source handed to `guessIndentation`: the four accessors the function calls. -/
structure LineSource where
  getLineCount : Nat
  getLineLength : Nat → Nat
  getLineContent : Nat → List Nat
  getLineCharCode : Nat → Nat → Option Nat

/-- Modelled from the spec: the text buffer behind the line source is not part of the source
file; the spec describes it as an ordered sequence of text lines with 1-based indices, giving
the line count, each line's length and content, and a character-code accessor. -/
def LineSource.ofLines (lines : List (List Nat)) : LineSource where
  getLineCount := lines.length
  getLineLength n := (lines.getD (n - 1) []).length
  getLineContent n := lines.getD (n - 1) []
  getLineCharCode n offset := charCodeAt (lines.getD (n - 1) []) offset

/-- The per-line variables of `_loop_1` (lines 80-83). -/
structure LineScan where
  currentLineHasContent : Bool
  currentLineIndentation : Nat
  currentLineSpacesCount : Nat
  currentLineTabsCount : Nat
  deriving DecidableEq, Repr

/-- The character loop of `_loop_1` (lines 84-98), from offset `j` on: tabs and spaces are
counted, the first other code unit records the indentation and leaves the loop.
The first `Nat` bounds the number of iterations. -/
def scanLine (charCodeAtFn : Nat → Option Nat) (lenJ : Nat) : Nat → Nat → LineScan → LineScan
  | 0, _, s => s
  | fuel + 1, j, s =>
    if j < lenJ then
      let charCode := charCodeAtFn j
      if charCode = some 9 then
        scanLine charCodeAtFn lenJ fuel (j + 1)
          { s with currentLineTabsCount := s.currentLineTabsCount + 1 }
      else if charCode = some 32 then
        scanLine charCodeAtFn lenJ fuel (j + 1)
          { s with currentLineSpacesCount := s.currentLineSpacesCount + 1 }
      else
        { s with currentLineHasContent := true, currentLineIndentation := j }
    else s

/-- The variables of `guessIndentation` that the scan of the lines updates (lines 61-67). -/
structure GuessState where
  linesIndentedWithTabsCount : Nat
  linesIndentedWithSpacesCount : Nat
  previousLineText : List Nat
  previousLineIndentation : Nat
  spacesDiffCount : List (Option Nat)
  deriving DecidableEq, Repr

/-- The statement `spacesDiffCount[k]++` on the score array. An entry of the array is a number,
or `none` where JavaScript holds no number (a hole, `undefined` or `NaN`). Within the array a
number is incremented and `NaN` stays `NaN`; at an index `k` past the end JavaScript stores
`undefined + 1 = NaN` at `k`, which extends the array to length `k + 1` and leaves holes in
between. -/
def bump (spacesDiffCount : List (Option Nat)) (k : Nat) : List (Option Nat) :=
  if k < spacesDiffCount.length then
    spacesDiffCount.set k ((spacesDiffCount.getD k none).map (fun v => v + 1))
  else spacesDiffCount ++ List.replicate (k - spacesDiffCount.length) none ++ [none]

/-- The constant `MAX_ALLOWED_TAB_SIZE_GUESS` (line 66). -/
def MAX_ALLOWED_TAB_SIZE_GUESS : Nat := 8

/-- The constant `ALLOWED_TAB_SIZE_GUESSES` (line 65). -/
def ALLOWED_TAB_SIZE_GUESSES : List Nat := [2, 4, 6, 8]

/-- The initial values of the scan variables (lines 61-67). -/
def initialState : GuessState :=
  { linesIndentedWithTabsCount := 0
    linesIndentedWithSpacesCount := 0
    previousLineText := []
    previousLineIndentation := 0
    spacesDiffCount :=
      [some 0, some 0, some 0, some 0, some 0, some 0, some 0, some 0, some 0] }

/-- Lines 99-114 of `_loop_1`: what one line does to the scan variables once its text and
its `LineScan` are known. A line without content leaves everything as it is. -/
def applyLine (st : GuessState) (currentLineText : List Nat) (cur : LineScan) : GuessState :=
  if !cur.currentLineHasContent then st
  else
    let currentSpacesDiff :=
      spacesDiff st.previousLineText st.previousLineIndentation
        currentLineText cur.currentLineIndentation
    { linesIndentedWithTabsCount :=
        if cur.currentLineTabsCount > 0 then st.linesIndentedWithTabsCount + 1
        else st.linesIndentedWithTabsCount
      linesIndentedWithSpacesCount :=
        if cur.currentLineTabsCount > 0 then st.linesIndentedWithSpacesCount
        else if cur.currentLineSpacesCount > 1 then st.linesIndentedWithSpacesCount + 1
        else st.linesIndentedWithSpacesCount
      previousLineText := currentLineText
      previousLineIndentation := cur.currentLineIndentation
      spacesDiffCount :=
        if currentSpacesDiff ≤ MAX_ALLOWED_TAB_SIZE_GUESS then
          bump st.spacesDiffCount currentSpacesDiff
        else st.spacesDiffCount }

/-- The loop body `_loop_1(lineNumber)` (lines 68-115), as a function of the scan variables. -/
def _loop_1 (source : LineSource) (st : GuessState) (lineNumber : Nat) : GuessState :=
  let currentLineLength := source.getLineLength lineNumber
  let currentLineText := source.getLineContent lineNumber
  let charCodeAtFn : Nat → Option Nat :=
    if currentLineLength > 65536 then fun offset => source.getLineCharCode lineNumber offset
    else fun offset => charCodeAt currentLineText offset
  applyLine st currentLineText
    (scanLine charCodeAtFn currentLineLength currentLineLength 0
      { currentLineHasContent := false, currentLineIndentation := 0,
        currentLineSpacesCount := 0, currentLineTabsCount := 0 })

/-- Lines 60-123: the scan of lines `1 .. linesCount` followed by the comparison of the last
content line with the empty line; the scan variables at line 124. -/
def scanSource (source : LineSource) : GuessState :=
  let linesCount := min source.getLineCount 10000
  let st := (List.range' 1 linesCount).foldl (_loop_1 source) initialState
  let deltaSpacesCount := spacesDiff st.previousLineText st.previousLineIndentation [] 0
  if deltaSpacesCount ≤ MAX_ALLOWED_TAB_SIZE_GUESS then
    { st with spacesDiffCount := bump st.spacesDiffCount deltaSpacesCount }
  else st

/-- The result object `{ insertSpaces, tabSize }`. -/
structure Verdict where
  insertSpaces : Bool
  tabSize : Nat
  deriving DecidableEq, Repr

/-- Line 124-127: the choice between spaces and tabs. -/
def chooseInsertSpaces (st : GuessState) (defaultInsertSpaces : Bool) : Bool :=
  if st.linesIndentedWithTabsCount ≠ st.linesIndentedWithSpacesCount then
    decide (st.linesIndentedWithTabsCount < st.linesIndentedWithSpacesCount)
  else defaultInsertSpaces

/-- The callback of `ALLOWED_TAB_SIZE_GUESSES.forEach` (lines 131-137). The first component of
the pair is ten times `tabSizeScore`, the second is `tabSize`. The source compares the integer
`possibleTabSizeScore` with `tabSizeScore`, which is `0`, an earlier integer bucket count, or the
double `0.1 * linesCount` with `linesCount ≤ 10000`; for such values `c > 0.1 * n` holds in
double arithmetic exactly when `10 * c > n`. Where the array holds no number the comparison
`possibleTabSizeScore > tabSizeScore` is false. -/
def tabSizeStep (spacesDiffCount : List (Option Nat)) (acc : Nat × Nat)
    (possibleTabSize : Nat) : Nat × Nat :=
  match spacesDiffCount.getD possibleTabSize none with
  | some possibleTabSizeScore =>
    if 10 * possibleTabSizeScore > acc.1 then (10 * possibleTabSizeScore, possibleTabSize)
    else acc
  | none => acc

/-- Lines 124-145: the verdict from the scan variables and `linesCount`. -/
def decideVerdict (st : GuessState) (linesCount defaultTabSize : Nat)
    (defaultInsertSpaces : Bool) : Verdict :=
  let insertSpaces := chooseInsertSpaces st defaultInsertSpaces
  let tabSizeScore10 := if insertSpaces then 0 else linesCount
  let r := ALLOWED_TAB_SIZE_GUESSES.foldl (tabSizeStep st.spacesDiffCount)
    (tabSizeScore10, defaultTabSize)
  { insertSpaces := insertSpaces, tabSize := r.2 }

/-- The exported function `guessIndentation(source, defaultTabSize, defaultInsertSpaces)`. -/
def guessIndentation (source : LineSource) (defaultTabSize : Nat) (defaultInsertSpaces : Bool) :
    Verdict :=
  decideVerdict (scanSource source) (min source.getLineCount 10000) defaultTabSize
    defaultInsertSpaces

/-- The code units of a string of the Basic Multilingual Plane. -/
def codes (s : String) : List Nat := s.toList.map Char.toNat

/-! ## Vocabulary of the specification -/

/-- Length of the longest common character-by-character prefix of two strings. -/
def commonPrefixLength : List Nat → List Nat → Nat
  | x :: xs, y :: ys => if x = y then commonPrefixLength xs ys + 1 else 0
  | _, _ => 0

/-- The remainder of the indentation prefix `a[0 .. aLength)` past the longest common prefix
it shares with the indentation prefix `b[0 .. bLength)`. -/
def remainder (a : List Nat) (aLength : Nat) (b : List Nat) (bLength : Nat) : List Nat :=
  (a.take aLength).drop (commonPrefixLength (a.take aLength) (b.take bLength))

/-- Number of space characters (code unit 32) in a string. -/
def spacesIn (s : List Nat) : Nat := s.count 32

/-- Number of characters other than the space in a string. -/
def nonSpacesIn (s : List Nat) : Nat := s.length - s.count 32

/-- Number of tab characters (code unit 9) in a string. -/
def tabsIn (s : List Nat) : Nat := s.count 9

/-- The value of `spacesDiff` from the space and non-space counts of the two remainders. -/
def scoreOf (aSpaces aTabs bSpaces bTabs : Nat) : Nat :=
  if aSpaces > 0 ∧ aTabs > 0 then 0
  else if bSpaces > 0 ∧ bTabs > 0 then 0
  else if absDiff aTabs bTabs = 0 then absDiff aSpaces bSpaces
  else if absDiff aSpaces bSpaces % absDiff aTabs bTabs = 0 then
    absDiff aSpaces bSpaces / absDiff aTabs bTabs
  else 0

/-- A code unit that `guessIndentation` counts as indentation: tab (9) or space (32). -/
def isIndentChar (c : Nat) : Bool := c == 9 || c == 32

/-- The indentation of a line: its run of space/tab characters before the first other
character. -/
def indentationOf (line : List Nat) : List Nat := line.takeWhile isIndentChar

/-- A content-bearing line: one with at least one character other than space and tab. -/
def hasContent (line : List Nat) : Bool := line.any (fun c => !isIndentChar c)

/-- What `_loop_1` does with a line whose text is the list `line`. -/
def lineStep (st : GuessState) (line : List Nat) : GuessState :=
  applyLine st line
    (scanLine (charCodeAt line) line.length line.length 0
      { currentLineHasContent := false, currentLineIndentation := 0,
        currentLineSpacesCount := 0, currentLineTabsCount := 0 })

/-- Lines 119-123: the comparison of the last content line with the empty line. -/
def finishScan (st : GuessState) : GuessState :=
  let deltaSpacesCount := spacesDiff st.previousLineText st.previousLineIndentation [] 0
  if deltaSpacesCount ≤ MAX_ALLOWED_TAB_SIZE_GUESS then
    { st with spacesDiffCount := bump st.spacesDiffCount deltaSpacesCount }
  else st

/-- The number held at index `k` of a score array, and 0 where it holds no number. -/
def readScore (spacesDiffCount : List (Option Nat)) (k : Nat) : Nat :=
  (spacesDiffCount.getD k none).getD 0

/-- Bucket `k` of the score array `spacesDiffCount`. -/
def bucket (st : GuessState) (k : Nat) : Nat := readScore st.spacesDiffCount k

/-- A score array as `guessIndentation` keeps it: nine entries, each of them a number. -/
def ScoreArray (spacesDiffCount : List (Option Nat)) : Prop :=
  spacesDiffCount.length = 9 ∧ ∀ x ∈ spacesDiffCount, x ≠ none

/-- A content-bearing line whose indentation holds at least one tab. -/
def isTabIndented (line : List Nat) : Bool :=
  hasContent line && decide (0 < tabsIn (indentationOf line))

/-- A content-bearing line whose indentation holds no tab and at least two spaces. -/
def isSpaceIndented (line : List Nat) : Bool :=
  hasContent line && decide (tabsIn (indentationOf line) = 0)
    && decide (1 < spacesIn (indentationOf line))

/-- The indentation widths of the content-bearing lines of a document, in order. -/
def contentIndents (lines : List (List Nat)) : List Nat :=
  (lines.filter hasContent).map (fun line => (indentationOf line).length)

/-- Indentation widths `n, n₁, n₂, ...` of consecutive content lines of a document nested by
steps of `T`: each width is the previous one plus `T` (a nested block opens) or at most the
previous one (the same block goes on, or blocks close). -/
def nestedFrom (T : Nat) : Nat → List Nat → Bool
  | _, [] => true
  | n, n' :: rest => (n' == n + T || decide (n' ≤ n)) && nestedFrom T n' rest

/-- The widths of a list of content lines are nested by steps of `T`. -/
def nested (T : Nat) : List Nat → Bool
  | [] => true
  | n :: rest => nestedFrom T n rest

/-- A document indented with spaces by steps of `T`: the indentation of every content-bearing
line consists of spaces only, its width is a multiple of `T`, and the widths of consecutive
content-bearing lines are nested by steps of `T`. -/
def SpaceNested (T : Nat) (lines : List (List Nat)) : Prop :=
  (∀ line ∈ lines, hasContent line = true → ∀ c ∈ indentationOf line, c = 32)
    ∧ (∀ N ∈ contentIndents lines, T ∣ N)
    ∧ nested T (contentIndents lines) = true

instance (T : Nat) (lines : List (List Nat)) : Decidable (SpaceNested T lines) :=
  inferInstanceAs (Decidable (_ ∧ _ ∧ _))

/-- The scan variables while only tab-indented lines have been seen: the previous indentation
prefix holds no space and only bucket 0 of the score array has been touched. -/
def TabsOnlyState (st : GuessState) : Prop :=
  st.previousLineIndentation ≤ st.previousLineText.length
    ∧ spacesIn (st.previousLineText.take st.previousLineIndentation) = 0
    ∧ ∀ k, 1 ≤ k → bucket st k = 0

/-- The scan variables inside a document indented with spaces by steps of `T`: the previous
indentation prefix is made of spaces, its width is a multiple of `T`, no line counted as
indented with tabs, and bucket `T` pays for the current depth and twice for every other
bucket. -/
def SpacesState (T : Nat) (st : GuessState) : Prop :=
  st.previousLineIndentation ≤ st.previousLineText.length
    ∧ (∀ c ∈ st.previousLineText.take st.previousLineIndentation, c = 32)
    ∧ ScoreArray st.spacesDiffCount
    ∧ st.linesIndentedWithTabsCount = 0
    ∧ T ∣ st.previousLineIndentation
    ∧ ∀ j, 1 ≤ j → j ≠ T →
        2 * T * bucket st j + st.previousLineIndentation ≤ T * bucket st T

/-- An indented line has been seen: bucket `T` and the count of space-indented lines are
positive. -/
def Seen (T : Nat) (st : GuessState) : Prop :=
  0 < bucket st T ∧ 0 < st.linesIndentedWithSpacesCount

/-- The score of two lines, each taken with its own indentation width: what `_loop_1` computes
for a previous content line `x` and the current content line `y`; the empty line stands for the
start and the end of the document. -/
def score (x y : List Nat) : Nat :=
  spacesDiff x (indentationOf x).length y (indentationOf y).length

/-- The scores of the consecutive pairs of a sequence of lines. -/
def adjacentScores : List (List Nat) → List Nat
  | x :: y :: rest => score x y :: adjacentScores (y :: rest)
  | _ => []

/-- The scores of the consecutive pairs (empty start line, first content line),
(content line, next content line), ..., (last content line, empty end line) of a document. -/
def pairScores (lines : List (List Nat)) : List Nat :=
  adjacentScores ([] :: (lines.filter hasContent ++ [[]]))

/-- The number `c[k]` of consecutive pairs with score `k` among the first
`min(lineCount, 10000)` lines of a document. -/
def pairCount (lines : List (List Nat)) (k : Nat) : Nat :=
  (pairScores (lines.take (min lines.length 10000))).count k

/-- The number of tab-indented lines among the first `min(lineCount, 10000)` lines. -/
def tabLines (lines : List (List Nat)) : Nat :=
  (lines.take (min lines.length 10000)).countP isTabIndented

/-- The number of space-indented lines among the first `min(lineCount, 10000)` lines. -/
def spaceLines (lines : List (List Nat)) : Nat :=
  (lines.take (min lines.length 10000)).countP isSpaceIndented

/-- The largest of the four counts of the candidates 2, 4, 6, 8. -/
def bestCount (c : Nat → Nat) : Nat := max (max (c 2) (c 4)) (max (c 6) (c 8))

/-- The smallest candidate among 2, 4, 6, 8 whose count is the largest. -/
def smallestBest (c : Nat → Nat) : Nat :=
  if c 2 = bestCount c then 2
  else if c 4 = bestCount c then 4
  else if c 6 = bestCount c then 6
  else 8

/-- One candidate `k` of the tab-size decision, on pair counts `c`: it wins when its count,
times ten, strictly exceeds the best score so far. -/
def candidateStep (c : Nat → Nat) (acc : Nat × Nat) (k : Nat) : Nat × Nat :=
  if 10 * c k > acc.1 then (10 * c k, k) else acc

/-- The decision of lines 124-145 as a function of the two line counts `t` and `s`, the pair
counts `c` and the number `n` of lines scanned; scores are kept multiplied by ten. -/
def verdictOf (t s : Nat) (c : Nat → Nat) (n defaultTabSize : Nat) (defaultInsertSpaces : Bool) :
    Verdict :=
  let insertSpaces := if t ≠ s then decide (t < s) else defaultInsertSpaces
  let r := [2, 4, 6, 8].foldl (candidateStep c) (if insertSpaces then 0 else n, defaultTabSize)
  { insertSpaces := insertSpaces, tabSize := r.2 }

/-- Two lines with the same leading whitespace: both without content, or both content-bearing
with the same indentation. -/
def sameLeading (x y : List Nat) : Prop :=
  (hasContent x = false ∧ hasContent y = false)
    ∨ (hasContent x = true ∧ hasContent y = true ∧ indentationOf x = indentationOf y)

instance (x y : List Nat) : Decidable (sameLeading x y) :=
  inferInstanceAs (Decidable (_ ∨ _))

/-- The document on the right is the document on the left with lines without content (empty or
made of spaces and tabs only) inserted at any positions. -/
inductive BlankInserted : List (List Nat) → List (List Nat) → Prop
  | nil : BlankInserted [] []
  | keep (l : List Nat) {d d' : List (List Nat)} :
      BlankInserted d d' → BlankInserted (l :: d) (l :: d')
  | insert (b : List Nat) {d d' : List (List Nat)} :
      hasContent b = false → BlankInserted d d' → BlankInserted d (b :: d')

/-! ## The loops of `spacesDiff` in terms of lists -/

theorem strictNe_comm (x y : Option Nat) : strictNe x y = strictNe y x := by
  cases x with
  | none => cases y <;> rfl
  | some x =>
    cases y with
    | none => rfl
    | some y =>
      by_cases h : x = y
      · subst h; rfl
      · have h' : ¬ y = x := fun e => h e.symm
        simp only [strictNe]
        rw [show (x != y) = true from by simpa using h,
          show (y != x) = true from by simpa using h']

theorem commonLoop_comm (a : List Nat) (aLength : Nat) (b : List Nat) (bLength : Nat)
    (fuel i : Nat) :
    commonLoop a aLength b bLength fuel i = commonLoop b bLength a aLength fuel i := by
  induction fuel generalizing i with
  | zero => rfl
  | succ n ih =>
    simp only [commonLoop]
    rw [strictNe_comm (charCodeAt a i), ih (i + 1)]
    by_cases h : i < aLength ∧ i < bLength
    · rw [if_pos h, if_pos h.symm]
    · rw [if_neg h, if_neg (fun h' => h h'.symm)]

theorem take_drop_cons (s : List Nat) (len i : Nat) (hlen : len ≤ s.length) (hi : i < len) :
    ∃ x, charCodeAt s i = some x ∧ (s.take len).drop i = x :: (s.take len).drop (i + 1) := by
  have h1 : i < (s.take len).length := by simp; omega
  have h2 : i < s.length := by omega
  refine ⟨s[i], ?_, ?_⟩
  · simp [charCodeAt, h2]
  · rw [List.drop_eq_getElem_cons h1]
    simp

theorem commonLoop_eq (a : List Nat) (aLength : Nat) (b : List Nat) (bLength : Nat)
    (ha : aLength ≤ a.length) (hb : bLength ≤ b.length) (fuel i : Nat)
    (hfuel : min aLength bLength ≤ fuel + i) :
    commonLoop a aLength b bLength fuel i
      = i + commonPrefixLength ((a.take aLength).drop i) ((b.take bLength).drop i) := by
  induction fuel generalizing i with
  | zero =>
    simp only [commonLoop]
    have h : aLength ≤ i ∨ bLength ≤ i := by omega
    rcases h with h | h
    · rw [List.drop_of_length_le (by simp; omega)]; simp [commonPrefixLength]
    · rw [List.drop_of_length_le (l := b.take bLength) (by simp; omega)]
      cases (List.drop i (List.take aLength a)) <;> simp [commonPrefixLength]
  | succ n ih =>
    simp only [commonLoop]
    by_cases h : i < aLength ∧ i < bLength
    · obtain ⟨x, hx, hxs⟩ := take_drop_cons a aLength i ha h.1
      obtain ⟨y, hy, hys⟩ := take_drop_cons b bLength i hb h.2
      rw [if_pos h, hx, hy, hxs, hys, ih (i + 1) (by omega)]
      by_cases hxy : x = y
      · simp [strictNe, commonPrefixLength, hxy]; omega
      · simp [strictNe, commonPrefixLength, hxy]
    · rw [if_neg h]
      have h : aLength ≤ i ∨ bLength ≤ i := by omega
      rcases h with h | h
      · rw [List.drop_of_length_le (by simp; omega)]; simp [commonPrefixLength]
      · rw [List.drop_of_length_le (l := b.take bLength) (by simp; omega)]
        cases (List.drop i (List.take aLength a)) <;> simp [commonPrefixLength]

theorem spacesIn_cons_space (xs : List Nat) : spacesIn (32 :: xs) = spacesIn xs + 1 := by
  simp [spacesIn]

theorem nonSpacesIn_cons_space (xs : List Nat) : nonSpacesIn (32 :: xs) = nonSpacesIn xs := by
  simp [nonSpacesIn]

theorem spacesIn_cons_other (x : Nat) (xs : List Nat) (h : x ≠ 32) :
    spacesIn (x :: xs) = spacesIn xs := by
  have h' : ¬ (32 = x) := fun e => h e.symm
  simp [spacesIn, List.count_cons, h']

theorem nonSpacesIn_cons_other (x : Nat) (xs : List Nat) (h : x ≠ 32) :
    nonSpacesIn (x :: xs) = nonSpacesIn xs + 1 := by
  have h' : ¬ (32 = x) := fun e => h e.symm
  have hc := List.count_le_length 32 xs
  simp only [nonSpacesIn, List.count_cons, List.length_cons]
  simp only [beq_iff_eq, h, if_false]
  omega

theorem countLoop_fold (s : List Nat) (len : Nat) (hlen : len ≤ s.length) (n i : Nat)
    (hn : i + n = len) (acc : Nat × Nat) :
    (List.range' i n).foldl
      (fun acc j => if charCodeAt s j = some 32 then (acc.1 + 1, acc.2) else (acc.1, acc.2 + 1))
      acc
      = (acc.1 + spacesIn ((s.take len).drop i), acc.2 + nonSpacesIn ((s.take len).drop i)) := by
  induction n generalizing i acc with
  | zero =>
    rw [List.drop_of_length_le (by simp; omega)]
    simp [spacesIn, nonSpacesIn]
  | succ n ih =>
    obtain ⟨x, hx, hxs⟩ := take_drop_cons s len i hlen (by omega)
    rw [List.range'_succ, List.foldl_cons, ih (i + 1) (by omega), hx, hxs]
    by_cases h : x = 32
    · subst h
      rw [spacesIn_cons_space, nonSpacesIn_cons_space]
      simp only [if_true]
      congr 1
      omega
    · rw [spacesIn_cons_other x _ h, nonSpacesIn_cons_other x _ h]
      simp only [Option.some.injEq, h, if_false]
      congr 1
      omega

theorem countLoop_eq (s : List Nat) (i len : Nat) (hlen : len ≤ s.length) (hi : i ≤ len) :
    countLoop s i len
      = (spacesIn ((s.take len).drop i), nonSpacesIn ((s.take len).drop i)) := by
  unfold countLoop
  rw [countLoop_fold s len hlen (len - i) i (by omega)]
  simp

theorem commonPrefixLength_le_left (xs ys : List Nat) :
    commonPrefixLength xs ys ≤ xs.length := by
  induction xs generalizing ys with
  | nil => simp [commonPrefixLength]
  | cons x xs ih =>
    cases ys with
    | nil => simp [commonPrefixLength]
    | cons y ys =>
      simp only [commonPrefixLength]
      split
      · have := ih ys; simp; omega
      · simp

theorem commonPrefixLength_comm (xs ys : List Nat) :
    commonPrefixLength xs ys = commonPrefixLength ys xs := by
  induction xs generalizing ys with
  | nil => cases ys <;> simp [commonPrefixLength]
  | cons x xs ih =>
    cases ys with
    | nil => simp [commonPrefixLength]
    | cons y ys =>
      simp only [commonPrefixLength]
      rw [ih ys]
      by_cases h : x = y
      · simp [h]
      · have h' : ¬ y = x := fun e => h e.symm
        simp [h, h']

theorem spacesDiff_eq (a : List Nat) (aLength : Nat) (b : List Nat) (bLength : Nat)
    (ha : aLength ≤ a.length) (hb : bLength ≤ b.length) :
    spacesDiff a aLength b bLength
      = scoreOf (spacesIn (remainder a aLength b bLength))
          (nonSpacesIn (remainder a aLength b bLength))
          (spacesIn (remainder b bLength a aLength))
          (nonSpacesIn (remainder b bLength a aLength)) := by
  have hcp := commonLoop_eq a aLength b bLength ha hb (min aLength bLength) 0 (by omega)
  simp only [List.drop_zero, Nat.zero_add] at hcp
  have hle := commonPrefixLength_le_left (a.take aLength) (b.take bLength)
  have hle2 := commonPrefixLength_le_left (b.take bLength) (a.take aLength)
  rw [commonPrefixLength_comm] at hle2
  simp only [List.length_take] at hle hle2
  unfold spacesDiff
  simp only [hcp]
  rw [countLoop_eq a _ aLength ha (by omega), countLoop_eq b _ bLength hb (by omega)]
  simp only [remainder, scoreOf, commonPrefixLength_comm (b.take bLength)]

theorem absDiff_comm (x y : Nat) : absDiff x y = absDiff y x := by
  unfold absDiff; omega

theorem absDiff_zero_right (x : Nat) : absDiff x 0 = x := by
  unfold absDiff; omega

theorem absDiff_self (x : Nat) : absDiff x x = 0 := by
  unfold absDiff; omega

theorem scoreOf_comm (aSpaces aTabs bSpaces bTabs : Nat) :
    scoreOf aSpaces aTabs bSpaces bTabs = scoreOf bSpaces bTabs aSpaces aTabs := by
  unfold scoreOf
  rw [absDiff_comm bTabs aTabs, absDiff_comm bSpaces aSpaces]
  by_cases h1 : aSpaces > 0 ∧ aTabs > 0 <;> by_cases h2 : bSpaces > 0 ∧ bTabs > 0 <;>
    simp only [h1, h2, if_true, if_false]

theorem spacesDiff_scoreOf (a : List Nat) (aLength : Nat) (b : List Nat) (bLength : Nat) :
    spacesDiff a aLength b bLength
      = scoreOf
          (countLoop a (commonLoop a aLength b bLength (min aLength bLength) 0) aLength).1
          (countLoop a (commonLoop a aLength b bLength (min aLength bLength) 0) aLength).2
          (countLoop b (commonLoop a aLength b bLength (min aLength bLength) 0) bLength).1
          (countLoop b (commonLoop a aLength b bLength (min aLength bLength) 0) bLength).2 :=
  rfl

theorem nonSpacesIn_eq_tabsIn (xs : List Nat) (h : ∀ c ∈ xs, c = 32 ∨ c = 9) :
    nonSpacesIn xs = tabsIn xs := by
  induction xs with
  | nil => rfl
  | cons x xs ih =>
    have ih' := ih (fun c hc => h c (List.mem_cons_of_mem x hc))
    rcases h x (List.mem_cons_self x xs) with hx | hx
    · subst hx
      rw [nonSpacesIn_cons_space, ih']
      simp [tabsIn]
    · subst hx
      rw [nonSpacesIn_cons_other 9 xs (by decide), ih']
      simp [tabsIn]

theorem mem_take_of_mem_remainder (a : List Nat) (aLength : Nat) (b : List Nat) (bLength c : Nat)
    (h : c ∈ remainder a aLength b bLength) : c ∈ a.take aLength :=
  List.mem_of_mem_drop h

/-! ## The character loop of `_loop_1` in terms of lists -/

theorem drop_cons_charCodeAt (l : List Nat) (j : Nat) (h : j < l.length) :
    ∃ x, charCodeAt l j = some x ∧ l.drop j = x :: l.drop (j + 1) := by
  refine ⟨l[j], ?_, ?_⟩
  · simp [charCodeAt, h]
  · rw [List.drop_eq_getElem_cons h]

theorem scanLine_drop (l : List Nat) (fuel j : Nat) (s : LineScan) (h : j + fuel = l.length) :
    scanLine (charCodeAt l) l.length fuel j s
      = if hasContent (l.drop j) then
          { currentLineHasContent := true
            currentLineIndentation := j + (indentationOf (l.drop j)).length
            currentLineSpacesCount := s.currentLineSpacesCount + spacesIn (indentationOf (l.drop j))
            currentLineTabsCount := s.currentLineTabsCount + tabsIn (indentationOf (l.drop j)) }
        else
          { s with
            currentLineSpacesCount := s.currentLineSpacesCount + spacesIn (l.drop j)
            currentLineTabsCount := s.currentLineTabsCount + tabsIn (l.drop j) } := by
  induction fuel generalizing j s with
  | zero =>
    rw [List.drop_of_length_le (by omega)]
    simp [scanLine, hasContent, spacesIn, tabsIn]
  | succ n ih =>
    obtain ⟨x, hx, hxs⟩ := drop_cons_charCodeAt l j (by omega)
    simp only [scanLine]
    rw [if_pos (by omega), hx, hxs]
    by_cases h9 : x = 9
    · subst h9
      rw [if_pos rfl, ih (j + 1) _ (by omega)]
      simp [hasContent, indentationOf, isIndentChar, spacesIn, tabsIn, List.takeWhile_cons]
      split <;> simp <;> omega
    · by_cases h32 : x = 32
      · subst h32
        rw [if_neg (by simp), if_pos rfl, ih (j + 1) _ (by omega)]
        simp [hasContent, indentationOf, isIndentChar, spacesIn, tabsIn, List.takeWhile_cons]
        split <;> simp <;> omega
      · rw [if_neg (by simpa using h9), if_neg (by simpa using h32)]
        simp [hasContent, indentationOf, isIndentChar, spacesIn, tabsIn, List.takeWhile_cons,
          h9, h32]

theorem scanLine_eq (l : List Nat) :
    scanLine (charCodeAt l) l.length l.length 0
        { currentLineHasContent := false, currentLineIndentation := 0,
          currentLineSpacesCount := 0, currentLineTabsCount := 0 }
      = if hasContent l then
          { currentLineHasContent := true
            currentLineIndentation := (indentationOf l).length
            currentLineSpacesCount := spacesIn (indentationOf l)
            currentLineTabsCount := tabsIn (indentationOf l) }
        else
          { currentLineHasContent := false, currentLineIndentation := 0,
            currentLineSpacesCount := spacesIn l, currentLineTabsCount := tabsIn l } := by
  rw [scanLine_drop l l.length 0 _ (by omega)]
  simp

theorem lineStep_blank (st : GuessState) (l : List Nat) (h : hasContent l = false) :
    lineStep st l = st := by
  unfold lineStep
  rw [scanLine_eq, h]
  simp [applyLine]

theorem lineStep_content (st : GuessState) (l : List Nat) (h : hasContent l = true) :
    lineStep st l =
      { linesIndentedWithTabsCount :=
          if tabsIn (indentationOf l) > 0 then st.linesIndentedWithTabsCount + 1
          else st.linesIndentedWithTabsCount
        linesIndentedWithSpacesCount :=
          if tabsIn (indentationOf l) > 0 then st.linesIndentedWithSpacesCount
          else if spacesIn (indentationOf l) > 1 then st.linesIndentedWithSpacesCount + 1
          else st.linesIndentedWithSpacesCount
        previousLineText := l
        previousLineIndentation := (indentationOf l).length
        spacesDiffCount :=
          if spacesDiff st.previousLineText st.previousLineIndentation l (indentationOf l).length
              ≤ MAX_ALLOWED_TAB_SIZE_GUESS then
            bump st.spacesDiffCount
              (spacesDiff st.previousLineText st.previousLineIndentation l
                (indentationOf l).length)
          else st.spacesDiffCount } := by
  unfold lineStep
  rw [scanLine_eq, h]
  simp [applyLine]

/-! ## The line loop of `guessIndentation` on a document given as a list of lines -/

theorem loop_1_ofLines (lines : List (List Nat)) (st : GuessState) (n : Nat) :
    _loop_1 (LineSource.ofLines lines) st n = lineStep st (lines.getD (n - 1) []) := by
  unfold _loop_1 lineStep LineSource.ofLines
  simp only
  split <;> rfl

theorem map_range_getD (lines : List (List Nat)) (n k : Nat) (h : k + n ≤ lines.length) :
    (List.range' (k + 1) n).map (fun i => lines.getD (i - 1) []) = (lines.drop k).take n := by
  induction n generalizing k with
  | zero => simp
  | succ n ih =>
    have hk : k < lines.length := by omega
    rw [List.range'_succ, List.map_cons, ih (k + 1) (by omega), List.drop_eq_getElem_cons hk,
      List.take_succ_cons]
    simp only [Nat.add_sub_cancel, List.getD_eq_getElem?_getD, List.getElem?_eq_getElem hk,
      Option.getD_some]

theorem take_min_length (lines : List (List Nat)) (n : Nat) :
    lines.take (min lines.length n) = lines.take n := by
  rcases Nat.le_total lines.length n with h | h
  · rw [Nat.min_eq_left h, List.take_of_length_le h, List.take_of_length_le (Nat.le_refl _)]
  · rw [Nat.min_eq_right h]

theorem scanSource_ofLines (lines : List (List Nat)) :
    scanSource (LineSource.ofLines lines)
      = finishScan ((lines.take 10000).foldl lineStep initialState) := by
  have hfun : _loop_1 (LineSource.ofLines lines)
      = fun st n => lineStep st ((fun i => lines.getD (i - 1) []) n) := by
    funext st n
    exact loop_1_ofLines lines st n
  have hmap := map_range_getD lines (min lines.length 10000) 0 (by omega)
  rw [List.drop_zero, take_min_length] at hmap
  unfold scanSource finishScan
  simp only [hfun]
  rw [← List.foldl_map, show (LineSource.ofLines lines).getLineCount = lines.length from rfl]
  simp only [Nat.zero_add] at hmap
  rw [hmap]

theorem guessIndentation_ofLines (lines : List (List Nat)) (defaultTabSize : Nat)
    (defaultInsertSpaces : Bool) :
    guessIndentation (LineSource.ofLines lines) defaultTabSize defaultInsertSpaces
      = decideVerdict (finishScan ((lines.take 10000).foldl lineStep initialState))
          (min lines.length 10000) defaultTabSize defaultInsertSpaces := by
  unfold guessIndentation
  rw [scanSource_ofLines]
  rfl

theorem hasContent_eq_false_of_blank (l : List Nat) (h : ∀ c ∈ l, c = 32 ∨ c = 9) :
    hasContent l = false := by
  unfold hasContent
  rw [List.any_eq_false]
  intro c hc
  rcases h c hc with rfl | rfl <;> decide

theorem foldl_lineStep_blank (lines : List (List Nat)) (st : GuessState)
    (h : ∀ l ∈ lines, hasContent l = false) : lines.foldl lineStep st = st := by
  induction lines generalizing st with
  | nil => rfl
  | cons l ls ih =>
    rw [List.foldl_cons, lineStep_blank st l (h l (List.mem_cons_self l ls))]
    exact ih st (fun m hm => h m (List.mem_cons_of_mem l hm))

theorem decideVerdict_initial (linesCount defaultTabSize : Nat) (defaultInsertSpaces : Bool) :
    decideVerdict (finishScan initialState) linesCount defaultTabSize defaultInsertSpaces
      = { insertSpaces := defaultInsertSpaces, tabSize := defaultTabSize } := by
  have h : finishScan initialState
      = { initialState with spacesDiffCount :=
          [some 1, some 0, some 0, some 0, some 0, some 0, some 0, some 0, some 0] } := by
    decide
  rw [h]
  simp [decideVerdict, chooseInsertSpaces, initialState, ALLOWED_TAB_SIZE_GUESSES, tabSizeStep]

/-! ## The two line counters -/

theorem foldl_lineStep_tabsCount (lines : List (List Nat)) (st : GuessState) :
    (lines.foldl lineStep st).linesIndentedWithTabsCount
      = st.linesIndentedWithTabsCount + lines.countP isTabIndented := by
  induction lines generalizing st with
  | nil => simp
  | cons l ls ih =>
    rw [List.foldl_cons, ih, List.countP_cons]
    cases h : hasContent l with
    | false => rw [lineStep_blank st l h]; simp [isTabIndented, h]
    | true =>
      rw [lineStep_content st l h]
      by_cases ht : 0 < tabsIn (indentationOf l)
      · simp [isTabIndented, h, ht]; omega
      · simp [isTabIndented, h, ht]

theorem foldl_lineStep_spacesCount (lines : List (List Nat)) (st : GuessState) :
    (lines.foldl lineStep st).linesIndentedWithSpacesCount
      = st.linesIndentedWithSpacesCount + lines.countP isSpaceIndented := by
  induction lines generalizing st with
  | nil => simp
  | cons l ls ih =>
    rw [List.foldl_cons, ih, List.countP_cons]
    cases h : hasContent l with
    | false => rw [lineStep_blank st l h]; simp [isSpaceIndented, h]
    | true =>
      rw [lineStep_content st l h]
      by_cases ht : 0 < tabsIn (indentationOf l)
      · have ht' : tabsIn (indentationOf l) ≠ 0 := by omega
        simp [isSpaceIndented, h, ht, ht']
      · have ht' : tabsIn (indentationOf l) = 0 := by omega
        by_cases hs : 1 < spacesIn (indentationOf l)
        · simp [isSpaceIndented, h, ht', hs]; omega
        · simp [isSpaceIndented, h, ht', hs]

theorem finishScan_tabsCount (st : GuessState) :
    (finishScan st).linesIndentedWithTabsCount = st.linesIndentedWithTabsCount := by
  unfold finishScan
  simp only
  split <;> rfl

theorem finishScan_spacesCount (st : GuessState) :
    (finishScan st).linesIndentedWithSpacesCount = st.linesIndentedWithSpacesCount := by
  unfold finishScan
  simp only
  split <;> rfl

theorem insertSpaces_ofLines (lines : List (List Nat)) (defaultTabSize : Nat)
    (defaultInsertSpaces : Bool) :
    (guessIndentation (LineSource.ofLines lines) defaultTabSize defaultInsertSpaces).insertSpaces
      = if (lines.take 10000).countP isTabIndented ≠ (lines.take 10000).countP isSpaceIndented
        then decide ((lines.take 10000).countP isTabIndented
          < (lines.take 10000).countP isSpaceIndented)
        else defaultInsertSpaces := by
  rw [guessIndentation_ofLines]
  simp only [decideVerdict, chooseInsertSpaces, finishScan_tabsCount, finishScan_spacesCount,
    foldl_lineStep_tabsCount, foldl_lineStep_spacesCount, initialState, Nat.zero_add]

theorem tabsIn_eq_length (xs : List Nat) (h : ∀ c ∈ xs, c = 9) : tabsIn xs = xs.length := by
  induction xs with
  | nil => rfl
  | cons x xs ih =>
    have hx := h x (List.mem_cons_self x xs)
    subst hx
    have := ih (fun c hc => h c (List.mem_cons_of_mem 9 hc))
    simp only [tabsIn] at this
    simp [tabsIn, this]

theorem spacesIn_eq_zero_of_tabs (xs : List Nat) (h : ∀ c ∈ xs, c = 9) : spacesIn xs = 0 := by
  unfold spacesIn
  rw [List.count_eq_zero]
  intro hm
  have := h 32 hm
  omega

theorem insertSpaces_of_tabs_only (lines : List (List Nat)) (defaultTabSize : Nat)
    (defaultInsertSpaces : Bool)
    (htabs : ∀ line ∈ lines, hasContent line = true → ∀ c ∈ indentationOf line, c = 9)
    (hex : ∃ line ∈ lines.take 10000, hasContent line = true ∧ indentationOf line ≠ []) :
    (guessIndentation (LineSource.ofLines lines) defaultTabSize defaultInsertSpaces).insertSpaces
      = false := by
  have hs : (lines.take 10000).countP isSpaceIndented = 0 := by
    rw [List.countP_eq_zero]
    intro l hl
    have hl' : l ∈ lines := List.mem_of_mem_take hl
    cases hc : hasContent l with
    | false => simp [isSpaceIndented, hc]
    | true =>
      have h0 := spacesIn_eq_zero_of_tabs _ (htabs l hl' hc)
      simp [isSpaceIndented, hc, h0]
  have ht : 0 < (lines.take 10000).countP isTabIndented := by
    rw [List.countP_pos_iff]
    obtain ⟨l, hl, hc, hne⟩ := hex
    refine ⟨l, hl, ?_⟩
    have hlen := tabsIn_eq_length _ (htabs l (List.mem_of_mem_take hl) hc)
    have hpos : 0 < (indentationOf l).length := List.length_pos.mpr hne
    simp [isTabIndented, hc, hlen, hpos]
  rw [insertSpaces_ofLines, hs, if_pos (by omega)]
  simp

/-! ## The score array -/

theorem tabSizeStep_eq (c : List (Option Nat)) (acc : Nat × Nat) (k : Nat) :
    tabSizeStep c acc k
      = if 10 * readScore c k > acc.1 then (10 * readScore c k, k) else acc := by
  unfold tabSizeStep readScore
  cases c.getD k none with
  | none => simp
  | some v => rfl

theorem scoreArray_initial : ScoreArray initialState.spacesDiffCount := by
  refine ⟨rfl, ?_⟩
  intro x hx
  simp only [initialState, List.mem_cons, List.mem_singleton] at hx
  rcases hx with h | h | h | h | h | h | h | h | h | h
  all_goals first | (rw [h]; exact Option.some_ne_none _) | (exact absurd h (List.not_mem_nil _))

theorem length_bump (c : List (Option Nat)) (k : Nat) (hk : k < c.length) :
    (bump c k).length = c.length := by
  unfold bump
  rw [if_pos hk, List.length_set]

theorem readScore_bump_ne (c : List (Option Nat)) (k j : Nat) (hjk : j ≠ k) :
    readScore (bump c k) j = readScore c j := by
  unfold bump readScore
  have hkj : ¬ k = j := fun e => hjk e.symm
  by_cases hk : k < c.length
  · rw [if_pos hk]
    simp only [List.getD_eq_getElem?_getD, List.getElem?_set, hkj, if_false]
  · rw [if_neg hk]
    simp only [List.getD_eq_getElem?_getD]
    by_cases hj : j < c.length
    · rw [List.append_assoc, List.getElem?_append_left hj]
    · rw [List.getElem?_eq_none (Nat.le_of_not_lt hj)]
      cases h : (c ++ List.replicate (k - c.length) none ++ [none])[j]? with
      | none => rfl
      | some x =>
        have hmem : x ∈ c ++ List.replicate (k - c.length) none ++ [none] :=
          List.getElem?_mem h
        have hget := h
        rw [List.append_assoc, List.getElem?_append_right (Nat.le_of_not_lt hj)] at hget
        have hx : x ∈ List.replicate (k - c.length) (none : Option Nat) ++ [none] :=
          List.getElem?_mem hget
        have hnone : x = none := by
          rcases List.mem_append.mp hx with h1 | h1
          · exact (List.mem_replicate.mp h1).2
          · exact List.mem_singleton.mp h1
        rw [hnone]
        rfl

theorem readScore_bump_self (c : List (Option Nat)) (k : Nat) (hk : k < c.length)
    (hwf : ∀ x ∈ c, x ≠ none) : readScore (bump c k) k = readScore c k + 1 := by
  unfold bump readScore
  rw [if_pos hk, List.getD_eq_getElem?_getD, List.getElem?_set_self hk, Option.getD_some,
    List.getD_eq_getElem?_getD]
  generalize h : List.get? c k = o
  rw [List.get?_eq_getElem?] at h
  simp only [h]
  cases o with
  | none =>
    rw [List.getElem?_eq_getElem hk] at h
    exact absurd h (Option.some_ne_none _)
  | some x =>
    have hx := hwf x (List.getElem?_mem h)
    cases x with
    | none => exact absurd rfl hx
    | some v => rfl

theorem getD_bump_guarded (c : List (Option Nat)) (d j : Nat) (hwf : ScoreArray c) :
    readScore (if d ≤ MAX_ALLOWED_TAB_SIZE_GUESS then bump c d else c) j
      = if j = d ∧ d ≤ 8 then readScore c j + 1 else readScore c j := by
  unfold MAX_ALLOWED_TAB_SIZE_GUESS
  by_cases hd : d ≤ 8
  · rw [if_pos hd]
    by_cases hj : j = d
    · subst hj
      rw [if_pos ⟨rfl, hd⟩, readScore_bump_self c j (by rw [hwf.1]; omega) hwf.2]
    · rw [if_neg (fun h => hj h.1), readScore_bump_ne c d j hj]
  · rw [if_neg hd, if_neg (fun h => hd h.2)]

theorem scoreArray_bump (c : List (Option Nat)) (k : Nat) (hk : k ≤ 8) (hwf : ScoreArray c) :
    ScoreArray (bump c k) := by
  have hlt : k < c.length := by rw [hwf.1]; omega
  refine ⟨(length_bump c k hlt).trans hwf.1, ?_⟩
  intro x hx
  unfold bump at hx
  rw [if_pos hlt] at hx
  rcases List.mem_or_eq_of_mem_set hx with h | h
  · exact hwf.2 x h
  · rw [h, List.getD_eq_getElem?_getD]
    generalize hv : List.get? c k = o
    rw [List.get?_eq_getElem?] at hv
    simp only [hv]
    cases o with
    | none =>
      rw [List.getElem?_eq_getElem hlt] at hv
      exact absurd hv (Option.some_ne_none _)
    | some y =>
      have hy := hwf.2 y (List.getElem?_mem hv)
      cases y with
      | none => exact absurd rfl hy
      | some v => exact Option.some_ne_none _

theorem length_bump_guarded (c : List (Option Nat)) (d : Nat) (hwf : ScoreArray c) :
    ScoreArray (if d ≤ MAX_ALLOWED_TAB_SIZE_GUESS then bump c d else c) := by
  split
  · rename_i h
    exact scoreArray_bump c d h hwf
  · exact hwf

/-! ## Indentation prefixes -/

theorem take_length_indentationOf (l : List Nat) :
    l.take (indentationOf l).length = indentationOf l :=
  (List.prefix_iff_eq_take.mp (List.takeWhile_prefix isIndentChar)).symm

theorem length_indentationOf_le (l : List Nat) : (indentationOf l).length ≤ l.length :=
  (List.takeWhile_prefix isIndentChar).length_le

theorem spacesIn_remainder_le (a : List Nat) (aLength : Nat) (b : List Nat) (bLength : Nat) :
    spacesIn (remainder a aLength b bLength) ≤ spacesIn (a.take aLength) :=
  (List.drop_sublist _ _).count_le 32

theorem scoreOf_zero_spaces (aTabs bTabs : Nat) : scoreOf 0 aTabs 0 bTabs = 0 := by
  unfold scoreOf
  simp [absDiff_self]

theorem spacesDiff_zero_of_no_spaces (a : List Nat) (aLength : Nat) (b : List Nat)
    (bLength : Nat) (ha : aLength ≤ a.length) (hb : bLength ≤ b.length)
    (hsa : spacesIn (a.take aLength) = 0) (hsb : spacesIn (b.take bLength) = 0) :
    spacesDiff a aLength b bLength = 0 := by
  have h1 := spacesIn_remainder_le a aLength b bLength
  have h2 := spacesIn_remainder_le b bLength a aLength
  rw [spacesDiff_eq a aLength b bLength ha hb,
    show spacesIn (remainder a aLength b bLength) = 0 by omega,
    show spacesIn (remainder b bLength a aLength) = 0 by omega]
  exact scoreOf_zero_spaces _ _

theorem commonPrefixLength_replicate (m n c : Nat) :
    commonPrefixLength (List.replicate m c) (List.replicate n c) = min m n := by
  induction m generalizing n with
  | zero => simp [commonPrefixLength]
  | succ m ih =>
    cases n with
    | zero => simp [commonPrefixLength]
    | succ n =>
      simp only [List.replicate_succ, commonPrefixLength, if_true, ih n]
      omega

theorem take_eq_replicate (a : List Nat) (aLength : Nat) (ha : aLength ≤ a.length)
    (hsa : ∀ c ∈ a.take aLength, c = 32) : a.take aLength = List.replicate aLength 32 := by
  rw [List.eq_replicate_iff]
  exact ⟨by rw [List.length_take]; omega, hsa⟩

theorem spacesDiff_spaces (a : List Nat) (aLength : Nat) (b : List Nat) (bLength : Nat)
    (ha : aLength ≤ a.length) (hb : bLength ≤ b.length)
    (hsa : ∀ c ∈ a.take aLength, c = 32) (hsb : ∀ c ∈ b.take bLength, c = 32) :
    spacesDiff a aLength b bLength = absDiff aLength bLength := by
  rw [spacesDiff_eq a aLength b bLength ha hb]
  unfold remainder
  rw [take_eq_replicate a aLength ha hsa, take_eq_replicate b bLength hb hsb,
    commonPrefixLength_replicate, commonPrefixLength_replicate, List.drop_replicate,
    List.drop_replicate]
  simp only [spacesIn, nonSpacesIn, List.count_replicate_self, List.length_replicate,
    Nat.sub_self, scoreOf, absDiff_self]
  simp only [gt_iff_lt, Nat.lt_irrefl, and_false, if_false, if_true]
  unfold absDiff
  omega

/-! ## Documents indented with tabs only -/

theorem foldl_lineStep_invariant (P : GuessState → Prop) (lines : List (List Nat))
    (hstep : ∀ st, ∀ l ∈ lines, hasContent l = true → P st → P (lineStep st l))
    (st : GuessState) (h0 : P st) : P (lines.foldl lineStep st) := by
  induction lines generalizing st with
  | nil => exact h0
  | cons l ls ih =>
    rw [List.foldl_cons]
    apply ih (fun st m hm => hstep st m (List.mem_cons_of_mem l hm))
    cases h : hasContent l with
    | false => rw [lineStep_blank st l h]; exact h0
    | true => exact hstep st l (List.mem_cons_self l ls) h h0

theorem tabsOnlyState_initial : TabsOnlyState initialState := by
  refine ⟨Nat.le_refl _, rfl, ?_⟩
  intro k hk
  simp only [bucket, initialState]
  rcases k with _ | _ | _ | _ | _ | _ | _ | _ | _ | k
  · omega
  all_goals rfl

theorem tabsOnlyState_lineStep (st : GuessState) (l : List Nat) (hc : hasContent l = true)
    (htabs : ∀ c ∈ indentationOf l, c = 9) (h : TabsOnlyState st) :
    TabsOnlyState (lineStep st l) := by
  obtain ⟨hlen, hsp, hb⟩ := h
  have hzero : spacesDiff st.previousLineText st.previousLineIndentation l
      (indentationOf l).length = 0 :=
    spacesDiff_zero_of_no_spaces _ _ _ _ hlen (length_indentationOf_le l) hsp
      (by rw [take_length_indentationOf]; exact spacesIn_eq_zero_of_tabs _ htabs)
  rw [lineStep_content st l hc, hzero]
  refine ⟨length_indentationOf_le l, ?_, ?_⟩
  · show spacesIn (l.take (indentationOf l).length) = 0
    rw [take_length_indentationOf]
    exact spacesIn_eq_zero_of_tabs _ htabs
  · intro k hk
    have := hb k hk
    simp only [bucket] at this ⊢
    rw [if_pos (by decide), readScore_bump_ne _ _ _ (by omega)]
    exact this

theorem tabsOnlyState_finishScan (st : GuessState) (h : TabsOnlyState st) :
    ∀ k, 1 ≤ k → bucket (finishScan st) k = 0 := by
  obtain ⟨hlen, hsp, hb⟩ := h
  have hzero : spacesDiff st.previousLineText st.previousLineIndentation [] 0 = 0 :=
    spacesDiff_zero_of_no_spaces _ _ _ _ hlen (Nat.le_refl _) hsp rfl
  intro k hk
  have := hb k hk
  unfold finishScan
  simp only [hzero, bucket] at this ⊢
  rw [if_pos (by decide), readScore_bump_ne _ _ _ (by omega)]
  exact this

theorem decideVerdict_tabSize_default (st : GuessState) (linesCount defaultTabSize : Nat)
    (defaultInsertSpaces : Bool) (h2 : bucket st 2 = 0) (h4 : bucket st 4 = 0)
    (h6 : bucket st 6 = 0) (h8 : bucket st 8 = 0) :
    (decideVerdict st linesCount defaultTabSize defaultInsertSpaces).tabSize
      = defaultTabSize := by
  simp only [bucket] at h2 h4 h6 h8
  simp only [decideVerdict, ALLOWED_TAB_SIZE_GUESSES, List.foldl, tabSizeStep_eq, h2, h4, h6,
    h8, Nat.mul_zero, gt_iff_lt, Nat.not_lt_zero, if_false]

theorem buckets_of_tabs_only (lines : List (List Nat))
    (htabs : ∀ line ∈ lines, hasContent line = true → ∀ c ∈ indentationOf line, c = 9) :
    ∀ k, 1 ≤ k → bucket (scanSource (LineSource.ofLines lines)) k = 0 := by
  rw [scanSource_ofLines]
  apply tabsOnlyState_finishScan
  apply foldl_lineStep_invariant TabsOnlyState _ _ _ tabsOnlyState_initial
  intro st l hl hc hst
  exact tabsOnlyState_lineStep st l hc (htabs l (List.mem_of_mem_take hl) hc) hst

/-! ## Documents indented with spaces by a constant step -/

theorem tabsIn_eq_zero_of_spaces (xs : List Nat) (h : ∀ c ∈ xs, c = 32) : tabsIn xs = 0 := by
  unfold tabsIn
  rw [List.count_eq_zero]
  intro hm
  have := h 9 hm
  omega

theorem spacesIn_eq_length (xs : List Nat) (h : ∀ c ∈ xs, c = 32) :
    spacesIn xs = xs.length := by
  have hr : xs = List.replicate xs.length 32 := List.eq_replicate_iff.mpr ⟨rfl, h⟩
  unfold spacesIn
  rw [hr, List.count_replicate_self, List.length_replicate]

theorem spacesState_initial (T : Nat) : SpacesState T initialState := by
  refine ⟨Nat.le_refl _, ?_, scoreArray_initial, rfl, Nat.dvd_zero T, ?_⟩
  · intro c hc
    simp [initialState] at hc
  · intro j hj _
    have hb : bucket initialState j = 0 := tabsOnlyState_initial.2.2 j hj
    rw [hb]
    simp [initialState]

theorem spacesState_lineStep (T : Nat) (hT : T = 2 ∨ T = 4 ∨ T = 6 ∨ T = 8) (st : GuessState)
    (l : List Nat) (hc : hasContent l = true) (hsp : ∀ c ∈ indentationOf l, c = 32)
    (hdvd : T ∣ (indentationOf l).length)
    (hrel : (indentationOf l).length = st.previousLineIndentation + T
      ∨ (indentationOf l).length ≤ st.previousLineIndentation)
    (h : SpacesState T st) :
    SpacesState T (lineStep st l)
      ∧ (Seen T st → Seen T (lineStep st l))
      ∧ (0 < (indentationOf l).length → Seen T (lineStep st l)) := by
  obtain ⟨hlen, hpre, hcl, htab, hdp, hpot⟩ := h
  have hd : spacesDiff st.previousLineText st.previousLineIndentation l
      (indentationOf l).length = absDiff st.previousLineIndentation (indentationOf l).length :=
    spacesDiff_spaces _ _ _ _ hlen (length_indentationOf_le l) hpre
      (by rw [take_length_indentationOf]; exact hsp)
  have hstate : SpacesState T (lineStep st l) := by
    rw [lineStep_content st l hc, hd, tabsIn_eq_zero_of_spaces _ hsp]
    refine ⟨length_indentationOf_le l, ?_, ?_, ?_, hdvd, ?_⟩
    · show ∀ c ∈ l.take (indentationOf l).length, c = 32
      rw [take_length_indentationOf]
      exact hsp
    · exact length_bump_guarded _ _ hcl
    · simp only [Nat.lt_irrefl, if_false]
      exact htab
    · intro j hj hjT
      have hp := hpot j hj hjT
      simp only [bucket] at hp ⊢
      rw [getD_bump_guarded _ _ j hcl, getD_bump_guarded _ _ T hcl]
      simp only [absDiff]
      rcases hT with rfl | rfl | rfl | rfl <;> split_ifs <;> omega
  refine ⟨hstate, ?_, ?_⟩
  · rintro ⟨hb, hs⟩
    rw [lineStep_content st l hc, hd, tabsIn_eq_zero_of_spaces _ hsp]
    constructor
    · simp only [bucket] at hb ⊢
      rw [getD_bump_guarded _ _ T hcl]
      split_ifs <;> omega
    · simp only [Nat.lt_irrefl, if_false]
      split_ifs <;> omega
  · intro hpos
    obtain ⟨_, _, _, _, _, hpot'⟩ := hstate
    constructor
    · have hp := hpot' 1 (Nat.le_refl 1) (by omega)
      have hN : (lineStep st l).previousLineIndentation = (indentationOf l).length := by
        rw [lineStep_content st l hc]
      rw [hN] at hp
      rcases hT with rfl | rfl | rfl | rfl <;> omega
    · rw [lineStep_content st l hc, tabsIn_eq_zero_of_spaces _ hsp,
        spacesIn_eq_length _ hsp]
      simp only [Nat.lt_irrefl, if_false]
      have h1 : 1 < (indentationOf l).length := by
        rcases hT with rfl | rfl | rfl | rfl <;> omega
      rw [if_pos h1]
      omega

theorem contentIndents_cons (l : List Nat) (ls : List (List Nat)) :
    contentIndents (l :: ls)
      = if hasContent l = true then (indentationOf l).length :: contentIndents ls
        else contentIndents ls := by
  unfold contentIndents
  rw [List.filter_cons]
  split <;> simp

theorem spacesState_foldl (T : Nat) (hT : T = 2 ∨ T = 4 ∨ T = 6 ∨ T = 8)
    (lines : List (List Nat)) (st : GuessState)
    (hsp : ∀ line ∈ lines, hasContent line = true → ∀ c ∈ indentationOf line, c = 32)
    (hdvd : ∀ N ∈ contentIndents lines, T ∣ N)
    (hnest : nestedFrom T st.previousLineIndentation (contentIndents lines) = true)
    (h : SpacesState T st) :
    SpacesState T (lines.foldl lineStep st)
      ∧ ((Seen T st ∨ ∃ N ∈ contentIndents lines, 0 < N) → Seen T (lines.foldl lineStep st)) := by
  induction lines generalizing st with
  | nil =>
    refine ⟨h, ?_⟩
    rintro (hs | ⟨N, hN, _⟩)
    · exact hs
    · simp [contentIndents] at hN
  | cons l ls ih =>
    rw [List.foldl_cons]
    have hsp' : ∀ line ∈ ls, hasContent line = true → ∀ c ∈ indentationOf line, c = 32 :=
      fun line hl => hsp line (List.mem_cons_of_mem l hl)
    rw [contentIndents_cons] at hdvd hnest ⊢
    cases hc : hasContent l with
    | false =>
      rw [hc] at hdvd hnest
      simp only [Bool.false_eq_true, if_false] at hdvd hnest ⊢
      rw [lineStep_blank st l hc]
      exact ih st hsp' hdvd hnest h
    | true =>
      rw [hc] at hdvd hnest
      simp only [if_true] at hdvd hnest ⊢
      simp only [nestedFrom, Bool.and_eq_true, Bool.or_eq_true, beq_iff_eq,
        decide_eq_true_eq] at hnest
      have hstep := spacesState_lineStep T hT st l hc (hsp l (List.mem_cons_self l ls) hc)
        (hdvd _ (List.mem_cons_self _ _)) hnest.1 h
      have hN : (lineStep st l).previousLineIndentation = (indentationOf l).length := by
        rw [lineStep_content st l hc]
      have hrec := ih (lineStep st l) hsp'
        (fun N hN' => hdvd N (List.mem_cons_of_mem _ hN')) (by rw [hN]; exact hnest.2) hstep.1
      refine ⟨hrec.1, ?_⟩
      rintro (hs | ⟨N, hNmem, hNpos⟩)
      · exact hrec.2 (Or.inl (hstep.2.1 hs))
      · rcases List.mem_cons.mp hNmem with rfl | hNmem
        · exact hrec.2 (Or.inl (hstep.2.2 hNpos))
        · exact hrec.2 (Or.inr ⟨N, hNmem, hNpos⟩)

theorem spacesState_finishScan (T : Nat) (hT : T = 2 ∨ T = 4 ∨ T = 6 ∨ T = 8)
    (st : GuessState) (h : SpacesState T st) (hseen : Seen T st) :
    (finishScan st).linesIndentedWithTabsCount = 0
      ∧ 0 < (finishScan st).linesIndentedWithSpacesCount
      ∧ 0 < bucket (finishScan st) T
      ∧ ∀ j, 1 ≤ j → j ≠ T → 2 * bucket (finishScan st) j ≤ bucket (finishScan st) T := by
  obtain ⟨hlen, hpre, hcl, htab, hdp, hpot⟩ := h
  obtain ⟨hb, hs⟩ := hseen
  have hd : spacesDiff st.previousLineText st.previousLineIndentation [] 0
      = st.previousLineIndentation := by
    rw [spacesDiff_spaces _ _ [] 0 hlen (Nat.le_refl _) hpre (by simp), absDiff_zero_right]
  have hfin : (finishScan st).spacesDiffCount
      = if st.previousLineIndentation ≤ MAX_ALLOWED_TAB_SIZE_GUESS then
          bump st.spacesDiffCount st.previousLineIndentation
        else st.spacesDiffCount := by
    unfold finishScan
    simp only [hd]
    split <;> rfl
  refine ⟨by rw [finishScan_tabsCount]; exact htab, by rw [finishScan_spacesCount]; exact hs,
    ?_, ?_⟩
  · simp only [bucket] at hb ⊢
    rw [hfin, getD_bump_guarded _ _ T hcl]
    split_ifs <;> omega
  · intro j hj hjT
    have hp := hpot j hj hjT
    simp only [bucket] at hb hp ⊢
    rw [hfin, getD_bump_guarded _ _ j hcl, getD_bump_guarded _ _ T hcl]
    rcases hT with rfl | rfl | rfl | rfl <;> split_ifs <;> omega

theorem tabSizeStep_before (c : List (Option Nat)) (acc : Nat × Nat) (j T : Nat)
    (hacc : acc.1 < 10 * readScore c T) (hj : readScore c j < readScore c T) :
    (tabSizeStep c acc j).1 < 10 * readScore c T := by
  rw [tabSizeStep_eq]
  split
  · show 10 * readScore c j < 10 * readScore c T
    omega
  · exact hacc

theorem tabSizeStep_at (c : List (Option Nat)) (acc : Nat × Nat) (T : Nat)
    (hacc : acc.1 < 10 * readScore c T) : tabSizeStep c acc T = (10 * readScore c T, T) := by
  rw [tabSizeStep_eq, if_pos hacc]

theorem tabSizeStep_after (c : List (Option Nat)) (j T : Nat) (hj : readScore c j < readScore c T) :
    tabSizeStep c (10 * readScore c T, T) j = (10 * readScore c T, T) := by
  rw [tabSizeStep_eq, if_neg (by omega)]

theorem decideVerdict_of_dominant (T : Nat) (hT : T = 2 ∨ T = 4 ∨ T = 6 ∨ T = 8)
    (st : GuessState) (linesCount defaultTabSize : Nat) (defaultInsertSpaces : Bool)
    (htab : st.linesIndentedWithTabsCount = 0) (hsp : 0 < st.linesIndentedWithSpacesCount)
    (hpos : 0 < bucket st T)
    (hdom : ∀ j, 1 ≤ j → j ≠ T → 2 * bucket st j ≤ bucket st T) :
    decideVerdict st linesCount defaultTabSize defaultInsertSpaces
      = { insertSpaces := true, tabSize := T } := by
  have hins : chooseInsertSpaces st defaultInsertSpaces = true := by
    unfold chooseInsertSpaces
    rw [htab, if_pos (by omega)]
    exact decide_eq_true hsp
  have hlt : ∀ j, 1 ≤ j → j ≠ T →
      readScore st.spacesDiffCount j < readScore st.spacesDiffCount T := by
    intro j hj hjT
    have := hdom j hj hjT
    simp only [bucket] at this hpos
    omega
  have h0 : ((0, defaultTabSize) : Nat × Nat).1 < 10 * readScore st.spacesDiffCount T := by
    simp only [bucket] at hpos
    show 0 < 10 * readScore st.spacesDiffCount T
    omega
  unfold decideVerdict
  simp only [hins, if_true, ALLOWED_TAB_SIZE_GUESSES, List.foldl]
  rcases hT with rfl | rfl | rfl | rfl
  · rw [tabSizeStep_at _ _ 2 h0, tabSizeStep_after _ 4 2 (hlt 4 (by decide) (by decide)),
      tabSizeStep_after _ 6 2 (hlt 6 (by decide) (by decide)),
      tabSizeStep_after _ 8 2 (hlt 8 (by decide) (by decide))]
  · rw [tabSizeStep_at _ _ 4 (tabSizeStep_before _ _ 2 4 h0 (hlt 2 (by decide) (by decide))),
      tabSizeStep_after _ 6 4 (hlt 6 (by decide) (by decide)),
      tabSizeStep_after _ 8 4 (hlt 8 (by decide) (by decide))]
  · rw [tabSizeStep_at _ _ 6 (tabSizeStep_before _ _ 4 6
        (tabSizeStep_before _ _ 2 6 h0 (hlt 2 (by decide) (by decide)))
        (hlt 4 (by decide) (by decide))),
      tabSizeStep_after _ 8 6 (hlt 8 (by decide) (by decide))]
  · rw [tabSizeStep_at _ _ 8 (tabSizeStep_before _ _ 6 8 (tabSizeStep_before _ _ 4 8
        (tabSizeStep_before _ _ 2 8 h0 (hlt 2 (by decide) (by decide)))
        (hlt 4 (by decide) (by decide))) (hlt 6 (by decide) (by decide)))]

theorem nestedFrom_zero_of_nested (T : Nat) (ns : List Nat) (hdvd : ∀ N ∈ ns, T ∣ N)
    (hnest : nested T ns = true) (hfirst : ∀ N ∈ ns.head?, N ≤ T) :
    nestedFrom T 0 ns = true := by
  cases ns with
  | nil => rfl
  | cons n rest =>
    have hn : n ≤ T := hfirst n (by simp)
    obtain ⟨k, hk⟩ := hdvd n (List.mem_cons_self n rest)
    have hcase : n = 0 + T ∨ n ≤ 0 := by
      rcases Nat.eq_zero_or_pos k with rfl | hkpos
      · right; omega
      · left
        have : T * 1 ≤ T * k := Nat.mul_le_mul_left T hkpos
        omega
    simp only [nested] at hnest
    simp only [nestedFrom, Bool.and_eq_true, Bool.or_eq_true, beq_iff_eq, decide_eq_true_eq]
    exact ⟨hcase, hnest⟩

theorem guessIndentation_of_spaceNested (T : Nat) (hT : T = 2 ∨ T = 4 ∨ T = 6 ∨ T = 8)
    (lines : List (List Nat)) (defaultTabSize : Nat) (defaultInsertSpaces : Bool)
    (hlen : lines.length ≤ 10000) (hdoc : SpaceNested T lines)
    (hfirst : ∀ N ∈ (contentIndents lines).head?, N ≤ T)
    (hex : ∃ N ∈ contentIndents lines, 0 < N) :
    guessIndentation (LineSource.ofLines lines) defaultTabSize defaultInsertSpaces
      = { insertSpaces := true, tabSize := T } := by
  obtain ⟨hsp, hdvd, hnest⟩ := hdoc
  have hfold := spacesState_foldl T hT lines initialState hsp hdvd
    (nestedFrom_zero_of_nested T _ hdvd hnest hfirst) (spacesState_initial T)
  have hfin := spacesState_finishScan T hT _ hfold.1 (hfold.2 (Or.inr hex))
  rw [guessIndentation_ofLines, List.take_of_length_le hlen]
  exact decideVerdict_of_dominant T hT _ _ _ _ hfin.1 hfin.2.1 hfin.2.2.1 hfin.2.2.2

/-! ## The score array as counts of pair scores -/

theorem foldl_lineStep_filter (lines : List (List Nat)) (st : GuessState) :
    lines.foldl lineStep st = (lines.filter hasContent).foldl lineStep st := by
  induction lines generalizing st with
  | nil => rfl
  | cons l ls ih =>
    rw [List.foldl_cons, List.filter_cons]
    cases h : hasContent l with
    | false =>
      rw [lineStep_blank st l h]
      simp only [Bool.false_eq_true, if_false]
      exact ih st
    | true =>
      simp only [if_true]
      rw [List.foldl_cons]
      exact ih _

theorem count_singleton_nat (d k : Nat) : List.count k [d] = if k = d then 1 else 0 := by
  by_cases h : k = d
  · subst h; simp
  · have h' : ¬ d = k := fun e => h e.symm
    simp [List.count_cons, h, h']

theorem adjacentScores_cons_cons (x y : List Nat) (rest : List (List Nat)) :
    adjacentScores (x :: y :: rest) = score x y :: adjacentScores (y :: rest) :=
  rfl

theorem bucket_foldl_content (cl : List (List Nat)) (st : GuessState)
    (hcl : ∀ l ∈ cl, hasContent l = true) (hlen : ScoreArray st.spacesDiffCount)
    (hind : st.previousLineIndentation = (indentationOf st.previousLineText).length)
    (k : Nat) (hk : k ≤ 8) :
    bucket (finishScan (cl.foldl lineStep st)) k
      = bucket st k + (adjacentScores (st.previousLineText :: (cl ++ [[]]))).count k := by
  induction cl generalizing st with
  | nil =>
    have hfin : (finishScan st).spacesDiffCount
        = if score st.previousLineText [] ≤ MAX_ALLOWED_TAB_SIZE_GUESS then
            bump st.spacesDiffCount (score st.previousLineText [])
          else st.spacesDiffCount := by
      unfold finishScan score
      simp only [hind, indentationOf, List.takeWhile_nil, List.length_nil]
      split <;> rfl
    simp only [List.foldl_nil, List.nil_append, adjacentScores, bucket]
    rw [hfin, getD_bump_guarded _ _ k hlen, count_singleton_nat]
    split_ifs <;> omega
  | cons l ls ih =>
    have hc := hcl l (List.mem_cons_self l ls)
    have hstep : (lineStep st l).spacesDiffCount
        = if score st.previousLineText l ≤ MAX_ALLOWED_TAB_SIZE_GUESS then
            bump st.spacesDiffCount (score st.previousLineText l)
          else st.spacesDiffCount := by
      rw [lineStep_content st l hc]
      simp only [score, hind]
    have htext : (lineStep st l).previousLineText = l := by rw [lineStep_content st l hc]
    have hind' : (lineStep st l).previousLineIndentation
        = (indentationOf (lineStep st l).previousLineText).length := by
      rw [lineStep_content st l hc]
    rw [List.foldl_cons, ih (lineStep st l) (fun m hm => hcl m (List.mem_cons_of_mem l hm))
      (by rw [hstep]; exact length_bump_guarded _ _ hlen) hind', htext]
    rw [List.cons_append, adjacentScores_cons_cons, List.count_cons]
    simp only [bucket]
    rw [hstep, getD_bump_guarded _ _ k hlen]
    simp only [beq_iff_eq]
    split_ifs <;> omega

theorem bucket_finishScan_foldl (lines : List (List Nat)) (k : Nat) (hk : k ≤ 8) :
    bucket (finishScan (lines.foldl lineStep initialState)) k = (pairScores lines).count k := by
  rw [foldl_lineStep_filter, bucket_foldl_content _ initialState
    (fun l hl => (List.mem_filter.mp hl).2) scoreArray_initial rfl k hk]
  have h0 : bucket initialState k = 0 := by
    simp only [bucket, initialState]
    rcases k with _ | _ | _ | _ | _ | _ | _ | _ | _ | k
    all_goals rfl
  rw [h0, Nat.zero_add]
  rfl

theorem decideVerdict_eq_verdictOf (st : GuessState) (t s : Nat) (c : Nat → Nat)
    (n defaultTabSize : Nat) (defaultInsertSpaces : Bool)
    (ht : st.linesIndentedWithTabsCount = t) (hs : st.linesIndentedWithSpacesCount = s)
    (h2 : bucket st 2 = c 2) (h4 : bucket st 4 = c 4) (h6 : bucket st 6 = c 6)
    (h8 : bucket st 8 = c 8) :
    decideVerdict st n defaultTabSize defaultInsertSpaces
      = verdictOf t s c n defaultTabSize defaultInsertSpaces := by
  simp only [bucket] at h2 h4 h6 h8
  simp only [decideVerdict, verdictOf, chooseInsertSpaces, ALLOWED_TAB_SIZE_GUESSES, List.foldl,
    tabSizeStep_eq, candidateStep, ht, hs, h2, h4, h6, h8]

theorem guessIndentation_eq_verdictOf (lines : List (List Nat)) (defaultTabSize : Nat)
    (defaultInsertSpaces : Bool) :
    guessIndentation (LineSource.ofLines lines) defaultTabSize defaultInsertSpaces
      = verdictOf (tabLines lines) (spaceLines lines) (pairCount lines)
          (min lines.length 10000) defaultTabSize defaultInsertSpaces := by
  rw [guessIndentation_ofLines]
  apply decideVerdict_eq_verdictOf
  · rw [finishScan_tabsCount, foldl_lineStep_tabsCount, tabLines, take_min_length]
    simp [initialState]
  · rw [finishScan_spacesCount, foldl_lineStep_spacesCount, spaceLines, take_min_length]
    simp [initialState]
  · rw [bucket_finishScan_foldl _ 2 (by decide), pairCount, take_min_length]
  · rw [bucket_finishScan_foldl _ 4 (by decide), pairCount, take_min_length]
  · rw [bucket_finishScan_foldl _ 6 (by decide), pairCount, take_min_length]
  · rw [bucket_finishScan_foldl _ 8 (by decide), pairCount, take_min_length]

theorem verdictOf_congr (t s : Nat) (c c' : Nat → Nat) (n defaultTabSize : Nat)
    (defaultInsertSpaces : Bool) (h2 : c 2 = c' 2) (h4 : c 4 = c' 4) (h6 : c 6 = c' 6)
    (h8 : c 8 = c' 8) :
    verdictOf t s c n defaultTabSize defaultInsertSpaces
      = verdictOf t s c' n defaultTabSize defaultInsertSpaces := by
  simp only [verdictOf, List.foldl, candidateStep, h2, h4, h6, h8]

/-! ## Bounds on the score and on the score array -/

theorem countLoop_fold_sum (s : List Nat) (n i : Nat) (acc : Nat × Nat) :
    ((List.range' i n).foldl
      (fun acc j => if charCodeAt s j = some 32 then (acc.1 + 1, acc.2) else (acc.1, acc.2 + 1))
      acc).1
    + ((List.range' i n).foldl
      (fun acc j => if charCodeAt s j = some 32 then (acc.1 + 1, acc.2) else (acc.1, acc.2 + 1))
      acc).2
    = acc.1 + acc.2 + n := by
  induction n generalizing i acc with
  | zero => simp
  | succ n ih =>
    rw [List.range'_succ, List.foldl_cons, ih]
    split <;> simp only <;> omega

theorem countLoop_sum (s : List Nat) (i len : Nat) :
    (countLoop s i len).1 + (countLoop s i len).2 = len - i := by
  unfold countLoop
  rw [countLoop_fold_sum]
  simp

theorem scoreOf_le (aSpaces aTabs bSpaces bTabs : Nat) :
    scoreOf aSpaces aTabs bSpaces bTabs ≤ max aSpaces bSpaces := by
  have habs : absDiff aSpaces bSpaces ≤ max aSpaces bSpaces := by
    unfold absDiff; omega
  unfold scoreOf
  split
  · exact Nat.zero_le _
  · split
    · exact Nat.zero_le _
    · split
      · exact habs
      · split
        · exact Nat.le_trans (Nat.div_le_self _ _) habs
        · exact Nat.zero_le _

theorem spacesDiff_le_max (a : List Nat) (aLength : Nat) (b : List Nat) (bLength : Nat) :
    spacesDiff a aLength b bLength ≤ max aLength bLength := by
  have h := scoreOf_le
    (countLoop a (commonLoop a aLength b bLength (min aLength bLength) 0) aLength).1
    (countLoop a (commonLoop a aLength b bLength (min aLength bLength) 0) aLength).2
    (countLoop b (commonLoop a aLength b bLength (min aLength bLength) 0) bLength).1
    (countLoop b (commonLoop a aLength b bLength (min aLength bLength) 0) bLength).2
  have ha := countLoop_sum a (commonLoop a aLength b bLength (min aLength bLength) 0) aLength
  have hb := countLoop_sum b (commonLoop a aLength b bLength (min aLength bLength) 0) bLength
  rw [spacesDiff_scoreOf]
  omega

theorem applyLine_scoreArray (st : GuessState) (text : List Nat) (cur : LineScan)
    (h : ScoreArray st.spacesDiffCount) : ScoreArray (applyLine st text cur).spacesDiffCount := by
  unfold applyLine
  split
  · exact h
  · exact length_bump_guarded _ _ h

theorem foldl_loop_1_scoreArray (source : LineSource) (ns : List Nat) (st : GuessState)
    (h : ScoreArray st.spacesDiffCount) :
    ScoreArray (ns.foldl (_loop_1 source) st).spacesDiffCount := by
  induction ns generalizing st with
  | nil => exact h
  | cons n ns ih =>
    rw [List.foldl_cons]
    exact ih _ (applyLine_scoreArray _ _ _ h)

theorem scanSource_scoreArray (source : LineSource) :
    ScoreArray (scanSource source).spacesDiffCount := by
  have hfold := foldl_loop_1_scoreArray source (List.range' 1 (min source.getLineCount 10000))
    initialState scoreArray_initial
  unfold scanSource
  simp only
  split
  · rename_i hd
    exact scoreArray_bump _ _ hd hfold
  · exact hfold

/-! ## The decision -/

theorem tabSizeStep_snd (c : List (Option Nat)) (acc : Nat × Nat) (k : Nat) :
    (tabSizeStep c acc k).2 = acc.2 ∨ (tabSizeStep c acc k).2 = k := by
  rw [tabSizeStep_eq]
  split
  · exact Or.inr rfl
  · exact Or.inl rfl

theorem decideVerdict_tabSize_mem (st : GuessState) (n defaultTabSize : Nat)
    (defaultInsertSpaces : Bool) :
    (decideVerdict st n defaultTabSize defaultInsertSpaces).tabSize = 2
      ∨ (decideVerdict st n defaultTabSize defaultInsertSpaces).tabSize = 4
      ∨ (decideVerdict st n defaultTabSize defaultInsertSpaces).tabSize = 6
      ∨ (decideVerdict st n defaultTabSize defaultInsertSpaces).tabSize = 8
      ∨ (decideVerdict st n defaultTabSize defaultInsertSpaces).tabSize = defaultTabSize := by
  simp only [decideVerdict, ALLOWED_TAB_SIZE_GUESSES, List.foldl]
  generalize ha0 : ((if chooseInsertSpaces st defaultInsertSpaces = true then 0 else n,
    defaultTabSize) : Nat × Nat) = a0
  have h0 : a0.2 = defaultTabSize := by rw [← ha0]
  have h2 := tabSizeStep_snd st.spacesDiffCount a0 2
  generalize tabSizeStep st.spacesDiffCount a0 2 = a1 at *
  have h4 := tabSizeStep_snd st.spacesDiffCount a1 4
  generalize tabSizeStep st.spacesDiffCount a1 4 = a2 at *
  have h6 := tabSizeStep_snd st.spacesDiffCount a2 6
  generalize tabSizeStep st.spacesDiffCount a2 6 = a3 at *
  have h8 := tabSizeStep_snd st.spacesDiffCount a3 8
  omega

theorem guessIndentation_def (source : LineSource) (defaultTabSize : Nat)
    (defaultInsertSpaces : Bool) :
    guessIndentation source defaultTabSize defaultInsertSpaces
      = decideVerdict (scanSource source) (min source.getLineCount 10000) defaultTabSize
          defaultInsertSpaces :=
  rfl

theorem decideVerdict_insertSpaces (st : GuessState) (n defaultTabSize : Nat)
    (defaultInsertSpaces : Bool) :
    (decideVerdict st n defaultTabSize defaultInsertSpaces).insertSpaces
      = chooseInsertSpaces st defaultInsertSpaces :=
  rfl

theorem tabSizeStep_le (c : List (Option Nat)) (acc : Nat × Nat) (k n : Nat) (hacc : acc.1 = n)
    (hk : 10 * readScore c k ≤ n) : tabSizeStep c acc k = acc := by
  rw [tabSizeStep_eq, if_neg (by omega)]

theorem decideVerdict_tabSize_biased (st : GuessState) (n defaultTabSize : Nat)
    (defaultInsertSpaces : Bool) (hins : chooseInsertSpaces st defaultInsertSpaces = false)
    (h2 : 10 * bucket st 2 ≤ n) (h4 : 10 * bucket st 4 ≤ n) (h6 : 10 * bucket st 6 ≤ n)
    (h8 : 10 * bucket st 8 ≤ n) :
    (decideVerdict st n defaultTabSize defaultInsertSpaces).tabSize = defaultTabSize := by
  simp only [bucket] at h2 h4 h6 h8
  simp only [decideVerdict, ALLOWED_TAB_SIZE_GUESSES, List.foldl, hins, Bool.false_eq_true,
    if_false]
  rw [tabSizeStep_le _ _ 2 n rfl h2, tabSizeStep_le _ _ 4 n rfl h4,
    tabSizeStep_le _ _ 6 n rfl h6, tabSizeStep_le _ _ 8 n rfl h8]

theorem candidateStep_fst (c : Nat → Nat) (acc : Nat × Nat) (k : Nat) :
    (candidateStep c acc k).1 = max acc.1 (10 * c k) := by
  unfold candidateStep
  split
  · simp only; omega
  · omega

theorem candidateStep_snd (c : Nat → Nat) (acc : Nat × Nat) (k : Nat) :
    (candidateStep c acc k).2 = if acc.1 < 10 * c k then k else acc.2 := by
  unfold candidateStep
  split
  · rfl
  · rfl

theorem foldl_candidates (c : Nat → Nat) (b defaultTabSize : Nat) :
    ([2, 4, 6, 8].foldl (candidateStep c) (b, defaultTabSize)).2
      = if b < 10 * bestCount c then smallestBest c else defaultTabSize := by
  simp only [List.foldl, bestCount, smallestBest]
  have f1 := candidateStep_fst c (b, defaultTabSize) 2
  have s1 := candidateStep_snd c (b, defaultTabSize) 2
  generalize candidateStep c (b, defaultTabSize) 2 = a1 at *
  have f2 := candidateStep_fst c a1 4
  have s2 := candidateStep_snd c a1 4
  generalize candidateStep c a1 4 = a2 at *
  have f3 := candidateStep_fst c a2 6
  have s3 := candidateStep_snd c a2 6
  generalize candidateStep c a2 6 = a3 at *
  have s4 := candidateStep_snd c a3 8
  generalize candidateStep c a3 8 = a4 at *
  simp only at f1 s1
  rw [s4, s3, s2, s1]
  split_ifs <;> omega

theorem verdictOf_tabSize (t s : Nat) (c : Nat → Nat) (n defaultTabSize : Nat)
    (defaultInsertSpaces : Bool) :
    (verdictOf t s c n defaultTabSize defaultInsertSpaces).tabSize
      = if (if (verdictOf t s c n defaultTabSize defaultInsertSpaces).insertSpaces = true then 0
            else n) < 10 * bestCount c
        then smallestBest c else defaultTabSize :=
  foldl_candidates c _ defaultTabSize

theorem verdictOf_insertSpaces (t s : Nat) (c : Nat → Nat) (n defaultTabSize : Nat)
    (defaultInsertSpaces : Bool) :
    (verdictOf t s c n defaultTabSize defaultInsertSpaces).insertSpaces
      = if t ≠ s then decide (t < s) else defaultInsertSpaces :=
  rfl

theorem verdictOf_linesCount (t s : Nat) (c : Nat → Nat) (n n' defaultTabSize : Nat)
    (defaultInsertSpaces : Bool)
    (h : (verdictOf t s c n defaultTabSize defaultInsertSpaces).insertSpaces = true) :
    verdictOf t s c n' defaultTabSize defaultInsertSpaces
      = verdictOf t s c n defaultTabSize defaultInsertSpaces := by
  rw [verdictOf_insertSpaces] at h
  simp only [verdictOf, h, if_true]

/-! ## Shared indentation, symmetry and reading direction -/

theorem commonPrefixLength_cons_self (x : Nat) (us vs : List Nat) :
    commonPrefixLength (x :: us) (x :: vs) = commonPrefixLength us vs + 1 := by
  simp only [commonPrefixLength, if_true]

theorem commonPrefixLength_append (p u v : List Nat) :
    commonPrefixLength (p ++ u) (p ++ v) = p.length + commonPrefixLength u v := by
  induction p with
  | nil => simp
  | cons x p ih =>
    rw [List.cons_append, List.cons_append, commonPrefixLength_cons_self, ih, List.length_cons]
    omega

theorem commonPrefixLength_self (t : List Nat) : commonPrefixLength t t = t.length := by
  induction t with
  | nil => rfl
  | cons x t ih => rw [commonPrefixLength_cons_self, ih, List.length_cons]

theorem remainder_append (p a : List Nat) (aLength : Nat) (b : List Nat) (bLength : Nat) :
    remainder (p ++ a) (p.length + aLength) (p ++ b) (p.length + bLength)
      = remainder a aLength b bLength := by
  unfold remainder
  rw [List.take_append, List.take_append, commonPrefixLength_append, List.drop_append]

theorem spacesDiff_append_left (p a : List Nat) (aLength : Nat) (b : List Nat) (bLength : Nat)
    (ha : aLength ≤ a.length) (hb : bLength ≤ b.length) :
    spacesDiff (p ++ a) (p.length + aLength) (p ++ b) (p.length + bLength)
      = spacesDiff a aLength b bLength := by
  rw [spacesDiff_eq (p ++ a) _ (p ++ b) _ (by rw [List.length_append]; omega)
    (by rw [List.length_append]; omega), spacesDiff_eq a aLength b bLength ha hb,
    remainder_append, remainder_append]

theorem spacesDiff_self (a : List Nat) (n : Nat) (hn : n ≤ a.length) :
    spacesDiff a n a n = 0 := by
  have hrem : remainder a n a n = [] := by
    unfold remainder
    rw [commonPrefixLength_self]
    exact List.drop_of_length_le (Nat.le_refl _)
  rw [spacesDiff_eq a n a n hn hn, hrem]
  exact scoreOf_zero_spaces _ _

theorem tabsIn_le_nonSpacesIn (xs : List Nat) : tabsIn xs ≤ nonSpacesIn xs := by
  induction xs with
  | nil => exact Nat.le_refl _
  | cons x xs ih =>
    by_cases h : x = 32
    · subst h
      rw [nonSpacesIn_cons_space]
      simpa [tabsIn] using ih
    · rw [nonSpacesIn_cons_other x xs h]
      simp only [tabsIn, List.count_cons] at ih ⊢
      split <;> omega

theorem spacesDiff_eq_zero_of_mixed (a : List Nat) (aLength : Nat) (b : List Nat)
    (bLength : Nat) (ha : aLength ≤ a.length) (hb : bLength ≤ b.length)
    (hmix : (0 < spacesIn (remainder a aLength b bLength)
        ∧ 0 < nonSpacesIn (remainder a aLength b bLength))
      ∨ (0 < spacesIn (remainder b bLength a aLength)
        ∧ 0 < nonSpacesIn (remainder b bLength a aLength))) :
    spacesDiff a aLength b bLength = 0 := by
  rw [spacesDiff_eq a aLength b bLength ha hb]
  unfold scoreOf
  rcases hmix with h | h
  · rw [if_pos h]
  · by_cases h₁ : 0 < spacesIn (remainder a aLength b bLength)
        ∧ 0 < nonSpacesIn (remainder a aLength b bLength)
    · rw [if_pos h₁]
    · rw [if_neg h₁, if_pos h]

theorem spacesDiff_comm (a : List Nat) (aLength : Nat) (b : List Nat) (bLength : Nat) :
    spacesDiff a aLength b bLength = spacesDiff b bLength a aLength := by
  rw [spacesDiff_scoreOf, spacesDiff_scoreOf, commonLoop_comm b bLength a aLength,
    Nat.min_comm bLength aLength]
  exact scoreOf_comm _ _ _ _

theorem score_comm (x y : List Nat) : score x y = score y x :=
  spacesDiff_comm _ _ _ _

theorem adjacentScores_append_pair (xs : List (List Nat)) (y z : List Nat) :
    adjacentScores (xs ++ [y, z]) = adjacentScores (xs ++ [y]) ++ [score y z] := by
  induction xs with
  | nil => rfl
  | cons x xs ih =>
    cases xs with
    | nil => rfl
    | cons x' xs' =>
      simp only [List.cons_append, adjacentScores_cons_cons] at ih ⊢
      rw [ih]

theorem adjacentScores_reverse (xs : List (List Nat)) :
    adjacentScores xs.reverse = (adjacentScores xs).reverse := by
  induction xs with
  | nil => rfl
  | cons x xs ih =>
    cases xs with
    | nil => rfl
    | cons y rest =>
      have h1 : (x :: y :: rest).reverse = rest.reverse ++ [y, x] := by simp
      have h2 : rest.reverse ++ [y] = (y :: rest).reverse := by simp
      rw [h1, adjacentScores_append_pair, h2, ih, adjacentScores_cons_cons,
        List.reverse_cons (a := score x y), score_comm y x]

theorem pairScores_reverse (lines : List (List Nat)) :
    pairScores lines.reverse = (pairScores lines).reverse := by
  unfold pairScores
  rw [← adjacentScores_reverse, List.filter_reverse]
  congr 1
  simp

theorem guessIndentation_congr (lines lines' : List (List Nat)) (defaultTabSize : Nat)
    (defaultInsertSpaces : Bool) (ht : tabLines lines = tabLines lines')
    (hs : spaceLines lines = spaceLines lines')
    (hc : ∀ k, pairCount lines k = pairCount lines' k)
    (hn : min lines.length 10000 = min lines'.length 10000) :
    guessIndentation (LineSource.ofLines lines) defaultTabSize defaultInsertSpaces
      = guessIndentation (LineSource.ofLines lines') defaultTabSize defaultInsertSpaces := by
  rw [guessIndentation_eq_verdictOf, guessIndentation_eq_verdictOf, ht, hs, hn]
  exact verdictOf_congr _ _ _ _ _ _ _ (hc 2) (hc 4) (hc 6) (hc 8)

theorem guessIndentation_reverse (lines : List (List Nat)) (defaultTabSize : Nat)
    (defaultInsertSpaces : Bool) (hlen : lines.length ≤ 10000) :
    guessIndentation (LineSource.ofLines lines.reverse) defaultTabSize defaultInsertSpaces
      = guessIndentation (LineSource.ofLines lines) defaultTabSize defaultInsertSpaces := by
  have hlen' : lines.reverse.length ≤ 10000 := by rw [List.length_reverse]; exact hlen
  have htake : lines.take (min lines.length 10000) = lines := by
    rw [take_min_length, List.take_of_length_le hlen]
  have htake' : lines.reverse.take (min lines.reverse.length 10000) = lines.reverse := by
    rw [take_min_length, List.take_of_length_le hlen']
  apply guessIndentation_congr
  · rw [tabLines, tabLines, htake, htake', List.countP_reverse]
  · rw [spaceLines, spaceLines, htake, htake', List.countP_reverse]
  · intro k
    rw [pairCount, pairCount, htake, htake', pairScores_reverse, List.count_reverse]
  · rw [List.length_reverse]

/-! ## Only the leading whitespace matters -/

theorem score_eq_indentation (x y : List Nat) :
    score x y
      = spacesDiff (indentationOf x) (indentationOf x).length (indentationOf y)
          (indentationOf y).length := by
  unfold score
  rw [spacesDiff_eq x _ y _ (length_indentationOf_le x) (length_indentationOf_le y),
    spacesDiff_eq (indentationOf x) _ (indentationOf y) _ (Nat.le_refl _) (Nat.le_refl _)]
  unfold remainder
  rw [take_length_indentationOf, take_length_indentationOf, List.take_length, List.take_length]

theorem score_congr (x x' y y' : List Nat) (hx : indentationOf x = indentationOf x')
    (hy : indentationOf y = indentationOf y') : score x y = score x' y' := by
  rw [score_eq_indentation, score_eq_indentation x' y', hx, hy]

theorem isTabIndented_congr (x y : List Nat) (h : sameLeading x y) :
    isTabIndented x = isTabIndented y := by
  unfold isTabIndented
  rcases h with ⟨hx, hy⟩ | ⟨hx, hy, hxy⟩
  · rw [hx, hy]; rfl
  · rw [hx, hy, hxy]

theorem isSpaceIndented_congr (x y : List Nat) (h : sameLeading x y) :
    isSpaceIndented x = isSpaceIndented y := by
  unfold isSpaceIndented
  rcases h with ⟨hx, hy⟩ | ⟨hx, hy, hxy⟩
  · rw [hx, hy]; rfl
  · rw [hx, hy, hxy]

theorem countP_congr_forall₂ (f : List Nat → Bool) (hf : ∀ x y, sameLeading x y → f x = f y)
    (l₁ l₂ : List (List Nat)) (h : List.Forall₂ sameLeading l₁ l₂) :
    l₁.countP f = l₂.countP f := by
  induction h with
  | nil => rfl
  | cons hxy _ ih => rw [List.countP_cons, List.countP_cons, ih, hf _ _ hxy]

theorem adjacentScores_congr_forall₂ (l₁ l₂ : List (List Nat))
    (h : List.Forall₂ sameLeading l₁ l₂) (p p' : List Nat)
    (hp : indentationOf p = indentationOf p') :
    adjacentScores (p :: (l₁.filter hasContent ++ [[]]))
      = adjacentScores (p' :: (l₂.filter hasContent ++ [[]])) := by
  induction h generalizing p p' with
  | nil =>
    show [score p []] = [score p' []]
    rw [score_congr p p' [] [] hp rfl]
  | @cons x y xs ys hxy _ ih =>
    rcases hxy with ⟨hx, hy⟩ | ⟨hx, hy, hind⟩
    · rw [List.filter_cons, List.filter_cons, hx, hy]
      exact ih p p' hp
    · rw [List.filter_cons, List.filter_cons, hx, hy]
      simp only [if_true, List.cons_append, adjacentScores_cons_cons]
      rw [score_congr p p' x y hp hind, ih x y hind]

theorem guessIndentation_sameLeading (lines₁ lines₂ : List (List Nat)) (defaultTabSize : Nat)
    (defaultInsertSpaces : Bool) (h : List.Forall₂ sameLeading lines₁ lines₂) :
    guessIndentation (LineSource.ofLines lines₁) defaultTabSize defaultInsertSpaces
      = guessIndentation (LineSource.ofLines lines₂) defaultTabSize defaultInsertSpaces := by
  have hlen := h.length_eq
  have htake : List.Forall₂ sameLeading (lines₁.take (min lines₁.length 10000))
      (lines₂.take (min lines₂.length 10000)) := by
    rw [← hlen]
    exact List.forall₂_take _ h
  apply guessIndentation_congr
  · exact countP_congr_forall₂ isTabIndented isTabIndented_congr _ _ htake
  · exact countP_congr_forall₂ isSpaceIndented isSpaceIndented_congr _ _ htake
  · intro k
    unfold pairCount pairScores
    rw [adjacentScores_congr_forall₂ _ _ htake [] [] rfl]
  · rw [hlen]

/-! ## Inserting lines without content -/

theorem isTabIndented_blank (b : List Nat) (h : hasContent b = false) :
    isTabIndented b = false := by
  unfold isTabIndented
  rw [h]
  rfl

theorem isSpaceIndented_blank (b : List Nat) (h : hasContent b = false) :
    isSpaceIndented b = false := by
  unfold isSpaceIndented
  rw [h]
  rfl

theorem blankInserted_length (d d' : List (List Nat)) (h : BlankInserted d d') :
    d.length ≤ d'.length := by
  induction h with
  | nil => exact Nat.le_refl _
  | keep l _ ih => simp only [List.length_cons]; omega
  | insert b _ _ ih => simp only [List.length_cons]; omega

theorem blankInserted_filter (d d' : List (List Nat)) (h : BlankInserted d d') :
    d.filter hasContent = d'.filter hasContent := by
  induction h with
  | nil => rfl
  | keep l _ ih => rw [List.filter_cons, List.filter_cons, ih]
  | insert b hb _ ih => rw [List.filter_cons, hb, ih]; rfl

theorem blankInserted_countP (f : List Nat → Bool)
    (hf : ∀ b, hasContent b = false → f b = false) (d d' : List (List Nat))
    (h : BlankInserted d d') : d.countP f = d'.countP f := by
  induction h with
  | nil => rfl
  | keep l _ ih => rw [List.countP_cons, List.countP_cons, ih]
  | insert b hb _ ih => rw [List.countP_cons, hf b hb, ih]; rfl

theorem guessIndentation_blankInserted (d d' : List (List Nat)) (defaultTabSize : Nat)
    (defaultInsertSpaces : Bool) (h : BlankInserted d d') (hlen : d'.length ≤ 10000) :
    (guessIndentation (LineSource.ofLines d') defaultTabSize defaultInsertSpaces).insertSpaces
        = (guessIndentation (LineSource.ofLines d) defaultTabSize
            defaultInsertSpaces).insertSpaces
      ∧ ((guessIndentation (LineSource.ofLines d) defaultTabSize
            defaultInsertSpaces).insertSpaces = true →
          (guessIndentation (LineSource.ofLines d') defaultTabSize defaultInsertSpaces).tabSize
            = (guessIndentation (LineSource.ofLines d) defaultTabSize
                defaultInsertSpaces).tabSize) := by
  have hle := blankInserted_length d d' h
  have htake : d.take (min d.length 10000) = d := by
    rw [take_min_length, List.take_of_length_le (by omega)]
  have htake' : d'.take (min d'.length 10000) = d' := by
    rw [take_min_length, List.take_of_length_le hlen]
  have ht : tabLines d' = tabLines d := by
    rw [tabLines, tabLines, htake, htake',
      blankInserted_countP isTabIndented isTabIndented_blank d d' h]
  have hs : spaceLines d' = spaceLines d := by
    rw [spaceLines, spaceLines, htake, htake',
      blankInserted_countP isSpaceIndented isSpaceIndented_blank d d' h]
  have hc : pairCount d' = pairCount d := by
    funext k
    rw [pairCount, pairCount, htake, htake', pairScores, pairScores,
      blankInserted_filter d d' h]
  rw [guessIndentation_eq_verdictOf, guessIndentation_eq_verdictOf, ht, hs, hc]
  refine ⟨rfl, ?_⟩
  intro htrue
  rw [verdictOf_linesCount _ _ _ _ (min d'.length 10000) _ _ htrue]

theorem guessIndentation_tabSize_buckets (source : LineSource) (defaultTabSize : Nat)
    (defaultInsertSpaces : Bool) :
    (guessIndentation source defaultTabSize defaultInsertSpaces).tabSize
      = if (guessIndentation source defaultTabSize defaultInsertSpaces).insertSpaces = true then
          (if 0 < bestCount (bucket (scanSource source)) then
            smallestBest (bucket (scanSource source))
          else defaultTabSize)
        else
          (if min source.getLineCount 10000 < 10 * bestCount (bucket (scanSource source)) then
            smallestBest (bucket (scanSource source))
          else defaultTabSize) := by
  rw [guessIndentation_def, decideVerdict_eq_verdictOf (scanSource source)
    (scanSource source).linesIndentedWithTabsCount
    (scanSource source).linesIndentedWithSpacesCount (bucket (scanSource source))
    (min source.getLineCount 10000) defaultTabSize defaultInsertSpaces rfl rfl rfl rfl rfl rfl,
    verdictOf_tabSize]
  cases (verdictOf (scanSource source).linesIndentedWithTabsCount
    (scanSource source).linesIndentedWithSpacesCount (bucket (scanSource source))
    (min source.getLineCount 10000) defaultTabSize defaultInsertSpaces).insertSpaces with
  | false => simp only [Bool.false_eq_true, if_false]
  | true =>
    simp only [if_true]
    by_cases h : 0 < bestCount (bucket (scanSource source))
    · rw [if_pos h, if_pos (by omega)]
    · rw [if_neg h, if_neg (by omega)]

/-! ## The claims -/

/-- C1: when none of the first `min(lineCount, 10000)` lines of a document contains a character
other than space or tab (the document without lines included), `guessIndentation` returns
exactly `{ insertSpaces: defaultInsertSpaces, tabSize: defaultTabSize }`. -/
theorem guessIndentation_no_content (lines : List (List Nat)) (defaultTabSize : Nat)
    (defaultInsertSpaces : Bool)
    (h : ∀ line ∈ lines.take (min lines.length 10000), ∀ c ∈ line, c = 32 ∨ c = 9) :
    guessIndentation (LineSource.ofLines lines) defaultTabSize defaultInsertSpaces
      = { insertSpaces := defaultInsertSpaces, tabSize := defaultTabSize } := by
  rw [take_min_length] at h
  rw [guessIndentation_ofLines,
    foldl_lineStep_blank _ _ (fun l hl => hasContent_eq_false_of_blank l (h l hl))]
  exact decideVerdict_initial _ _ _

/-- Witness of C1: a document of an empty line, a line of spaces and a line of tabs and spaces,
with defaults `tabSize = 3` and `insertSpaces = true`. -/
theorem guessIndentation_no_content_witness :
    guessIndentation (LineSource.ofLines [[], [32, 32], [9, 32, 9]]) 3 true
      = { insertSpaces := true, tabSize := 3 } :=
  guessIndentation_no_content [[], [32, 32], [9, 32, 9]] 3 true (by decide)

/-- Counterexample to C2 as stated. First document, step 4: four content lines indented with
8, 12, 16 and 8 spaces; the verdict has `tabSize = 8`, since the three jumps of 8 (from the
empty start line, from 16 back to 8, and to the empty end line) outnumber the two steps of 4.
Second document, step 2: the single line `x`, where nothing is indented; with defaults
`tabSize = 4` and `insertSpaces = false` the verdict is the defaults. -/
theorem guessIndentation_spaceNested_counterexample :
    (SpaceNested 4 [codes "        a", codes "            b", codes "                c",
          codes "        d"]
      ∧ [codes "        a", codes "            b", codes "                c",
          codes "        d"].length ≤ 10000
      ∧ (guessIndentation (LineSource.ofLines [codes "        a", codes "            b",
          codes "                c", codes "        d"]) 4 false).tabSize ≠ 4)
    ∧ (SpaceNested 2 [codes "x"]
      ∧ [codes "x"].length ≤ 10000
      ∧ (guessIndentation (LineSource.ofLines [codes "x"]) 4 false).tabSize ≠ 2
      ∧ (guessIndentation (LineSource.ofLines [codes "x"]) 4 false).insertSpaces ≠ true) := by
  decide

/-- C2, amended: for `T` in {2, 4, 6, 8} and a document of at most 10,000 lines in which every
content-bearing line is indented with spaces only, by a multiple of `T`, each content-bearing
line being indented by `T` more than the one before it or by at most as much, if the first
content-bearing line is indented by at most `T` spaces and at least one content-bearing line is
indented, then `guessIndentation` returns `tabSize = T` and `insertSpaces = true`, whatever the
defaults. -/
theorem guessIndentation_spaceNested (T : Nat) (hT : T = 2 ∨ T = 4 ∨ T = 6 ∨ T = 8)
    (lines : List (List Nat)) (defaultTabSize : Nat) (defaultInsertSpaces : Bool)
    (hlen : lines.length ≤ 10000) (hdoc : SpaceNested T lines)
    (hfirst : ∀ N ∈ (contentIndents lines).head?, N ≤ T)
    (hex : ∃ N ∈ contentIndents lines, 0 < N) :
    (guessIndentation (LineSource.ofLines lines) defaultTabSize defaultInsertSpaces).tabSize = T
      ∧ (guessIndentation (LineSource.ofLines lines) defaultTabSize
          defaultInsertSpaces).insertSpaces = true := by
  rw [guessIndentation_of_spaceNested T hT lines defaultTabSize defaultInsertSpaces hlen hdoc
    hfirst hex]
  exact ⟨rfl, rfl⟩

/-- Witness of C2, amended: a six-line function body nested by steps of 4, with defaults
`tabSize = 3` and `insertSpaces = false`. -/
theorem guessIndentation_spaceNested_witness :
    (guessIndentation (LineSource.ofLines [codes "function f() \x7b", codes "    if (x) \x7b",
        codes "        return 1;", codes "    \x7d", codes "", codes "\x7d"]) 3 false).tabSize = 4
      ∧ (guessIndentation (LineSource.ofLines [codes "function f() \x7b", codes "    if (x) \x7b",
        codes "        return 1;", codes "    \x7d", codes "", codes "\x7d"]) 3
          false).insertSpaces = true :=
  guessIndentation_spaceNested 4 (by decide) [codes "function f() \x7b", codes "    if (x) \x7b",
    codes "        return 1;", codes "    \x7d", codes "", codes "\x7d"] 3 false (by decide)
    (by decide) (by decide) (by decide)

/-- C3: on the document `function f() {` / `    return 1;` / `}` with defaults `tabSize = 4`
and `insertSpaces = false`, `guessIndentation` returns `{ insertSpaces: true, tabSize: 4 }`;
one line counts as indented with spaces, none as indented with tabs, and bucket 4 of the score
array is strictly larger than buckets 2, 6 and 8. -/
theorem guessIndentation_function_scenario :
    guessIndentation
        (LineSource.ofLines [codes "function f() \x7b", codes "    return 1;", codes "\x7d"]) 4 false
      = { insertSpaces := true, tabSize := 4 }
    ∧ (scanSource (LineSource.ofLines
        [codes "function f() \x7b", codes "    return 1;", codes "\x7d"])).linesIndentedWithSpacesCount
        = 1
    ∧ (scanSource (LineSource.ofLines
        [codes "function f() \x7b", codes "    return 1;", codes "\x7d"])).linesIndentedWithTabsCount
        = 0
    ∧ bucket (scanSource (LineSource.ofLines
        [codes "function f() \x7b", codes "    return 1;", codes "\x7d"])) 2
        < bucket (scanSource (LineSource.ofLines
          [codes "function f() \x7b", codes "    return 1;", codes "\x7d"])) 4
    ∧ bucket (scanSource (LineSource.ofLines
        [codes "function f() \x7b", codes "    return 1;", codes "\x7d"])) 6
        < bucket (scanSource (LineSource.ofLines
          [codes "function f() \x7b", codes "    return 1;", codes "\x7d"])) 4
    ∧ bucket (scanSource (LineSource.ofLines
        [codes "function f() \x7b", codes "    return 1;", codes "\x7d"])) 8
        < bucket (scanSource (LineSource.ofLines
          [codes "function f() \x7b", codes "    return 1;", codes "\x7d"])) 4 := by
  decide

/-- C6: two documents of at least 10,000 lines whose first 10,000 lines are the same get the
same verdict, whatever their later lines are and however many there are. -/
theorem guessIndentation_cap (lines₁ lines₂ : List (List Nat)) (defaultTabSize : Nat)
    (defaultInsertSpaces : Bool) (h₁ : 10000 ≤ lines₁.length) (h₂ : 10000 ≤ lines₂.length)
    (h : lines₁.take 10000 = lines₂.take 10000) :
    guessIndentation (LineSource.ofLines lines₁) defaultTabSize defaultInsertSpaces
      = guessIndentation (LineSource.ofLines lines₂) defaultTabSize defaultInsertSpaces := by
  rw [guessIndentation_ofLines, guessIndentation_ofLines, h, Nat.min_eq_right h₁,
    Nat.min_eq_right h₂]

/-- Witness of C6: 10,000 lines indented with one tab, followed by 50 lines indented with a tab
in one document and by 7 lines indented with two spaces in the other. -/
theorem guessIndentation_cap_witness :
    guessIndentation
        (LineSource.ofLines (List.replicate 10000 [9, 120] ++ List.replicate 50 [9, 120])) 4 true
      = guessIndentation
        (LineSource.ofLines (List.replicate 10000 [9, 120] ++ List.replicate 7 [32, 32, 120]))
        4 true :=
  guessIndentation_cap _ _ 4 true
    (by rw [List.length_append, List.length_replicate]; exact Nat.le_add_right _ _)
    (by rw [List.length_append, List.length_replicate]; exact Nat.le_add_right _ _)
    ((List.take_left' (List.length_replicate _ _)).trans
      (List.take_left' (List.length_replicate _ _)).symm)

/-- C7: `spacesDiff` is symmetric, `spacesDiff(a, aLength, b, bLength)` equals
`spacesDiff(b, bLength, a, aLength)`; this holds for all strings and all lengths, in particular
for `aLength ≤ |a|` and `bLength ≤ |b|`. -/
theorem spacesDiff_symmetric (a : List Nat) (aLength : Nat) (b : List Nat) (bLength : Nat) :
    spacesDiff a aLength b bLength = spacesDiff b bLength a aLength := by
  rw [spacesDiff_scoreOf, spacesDiff_scoreOf, commonLoop_comm b bLength a aLength,
    Nat.min_comm bLength aLength]
  exact scoreOf_comm _ _ _ _

/-- C8: for indentation prefixes made of spaces and tabs, when neither remainder past the
longest common prefix holds both a space and a tab and both remainders hold the same number of
tabs, `spacesDiff` returns the absolute difference of the numbers of spaces of the two
remainders. -/
theorem spacesDiff_eq_spacesDelta (a : List Nat) (aLength : Nat) (b : List Nat) (bLength : Nat)
    (ha : aLength ≤ a.length) (hb : bLength ≤ b.length)
    (hwa : ∀ c ∈ a.take aLength, c = 32 ∨ c = 9)
    (hwb : ∀ c ∈ b.take bLength, c = 32 ∨ c = 9)
    (hma : ¬ (0 < spacesIn (remainder a aLength b bLength)
      ∧ 0 < tabsIn (remainder a aLength b bLength)))
    (hmb : ¬ (0 < spacesIn (remainder b bLength a aLength)
      ∧ 0 < tabsIn (remainder b bLength a aLength)))
    (htabs : tabsIn (remainder a aLength b bLength) = tabsIn (remainder b bLength a aLength)) :
    spacesDiff a aLength b bLength
      = absDiff (spacesIn (remainder a aLength b bLength))
          (spacesIn (remainder b bLength a aLength)) := by
  have hta := nonSpacesIn_eq_tabsIn (remainder a aLength b bLength)
    (fun c hc => hwa c (mem_take_of_mem_remainder a aLength b bLength c hc))
  have htb := nonSpacesIn_eq_tabsIn (remainder b bLength a aLength)
    (fun c hc => hwb c (mem_take_of_mem_remainder b bLength a aLength c hc))
  rw [spacesDiff_eq a aLength b bLength ha hb, hta, htb]
  unfold scoreOf
  rw [if_neg hma, if_neg hmb, htabs, absDiff_self, if_pos rfl]

/-- Witness of C8, the example of the comment in the source: `a` is one tab and `b` is one tab
followed by four spaces; the score is 4. -/
theorem spacesDiff_eq_spacesDelta_witness :
    spacesDiff [9] 1 [9, 32, 32, 32, 32] 5 = 4 :=
  (spacesDiff_eq_spacesDelta [9] 1 [9, 32, 32, 32, 32] 5 (by decide) (by decide) (by decide)
    (by decide) (by decide) (by decide) (by decide)).trans (by decide)

/-- C9: when, past the longest common prefix of the two indentation prefixes, the remainder of
`a` or the remainder of `b` holds at least one space and at least one character that is not a
space, `spacesDiff` returns 0. -/
theorem spacesDiff_mixed (a : List Nat) (aLength : Nat) (b : List Nat) (bLength : Nat)
    (ha : aLength ≤ a.length) (hb : bLength ≤ b.length)
    (hmix : (0 < spacesIn (remainder a aLength b bLength)
        ∧ 0 < nonSpacesIn (remainder a aLength b bLength))
      ∨ (0 < spacesIn (remainder b bLength a aLength)
        ∧ 0 < nonSpacesIn (remainder b bLength a aLength))) :
    spacesDiff a aLength b bLength = 0 := by
  rw [spacesDiff_eq a aLength b bLength ha hb]
  unfold scoreOf
  rcases hmix with h | h
  · rw [if_pos h]
  · by_cases h₁ : 0 < spacesIn (remainder a aLength b bLength)
        ∧ 0 < nonSpacesIn (remainder a aLength b bLength)
    · rw [if_pos h₁]
    · rw [if_neg h₁, if_pos h]

/-- Witness of C9: `a` is one tab before the content, `b` is two spaces and a tab before the
content; the remainder of `b` mixes spaces and a tab. -/
theorem spacesDiff_mixed_witness :
    spacesDiff [9, 120] 1 [32, 32, 9, 121] 3 = 0 :=
  spacesDiff_mixed [9, 120] 1 [32, 32, 9, 121] 3 (by decide) (by decide) (by decide)

/-- C10: when neither remainder mixes spaces with other characters and the numbers of
non-space (tab) characters of the two remainders differ, `spacesDiff` returns the exact quotient
`spacesDelta / tabsDelta` if `tabsDelta` divides `spacesDelta` (so that the result times
`tabsDelta` is `spacesDelta`), and 0 otherwise. -/
theorem spacesDiff_tabs_differ (a : List Nat) (aLength : Nat) (b : List Nat) (bLength : Nat)
    (ha : aLength ≤ a.length) (hb : bLength ≤ b.length)
    (hma : ¬ (0 < spacesIn (remainder a aLength b bLength)
      ∧ 0 < nonSpacesIn (remainder a aLength b bLength)))
    (hmb : ¬ (0 < spacesIn (remainder b bLength a aLength)
      ∧ 0 < nonSpacesIn (remainder b bLength a aLength)))
    (htabs : 0 < absDiff (nonSpacesIn (remainder a aLength b bLength))
      (nonSpacesIn (remainder b bLength a aLength))) :
    (absDiff (nonSpacesIn (remainder a aLength b bLength))
          (nonSpacesIn (remainder b bLength a aLength))
        ∣ absDiff (spacesIn (remainder a aLength b bLength))
          (spacesIn (remainder b bLength a aLength)) →
      spacesDiff a aLength b bLength
          = absDiff (spacesIn (remainder a aLength b bLength))
              (spacesIn (remainder b bLength a aLength))
            / absDiff (nonSpacesIn (remainder a aLength b bLength))
              (nonSpacesIn (remainder b bLength a aLength))
        ∧ spacesDiff a aLength b bLength
            * absDiff (nonSpacesIn (remainder a aLength b bLength))
              (nonSpacesIn (remainder b bLength a aLength))
          = absDiff (spacesIn (remainder a aLength b bLength))
              (spacesIn (remainder b bLength a aLength)))
    ∧ (¬ absDiff (nonSpacesIn (remainder a aLength b bLength))
          (nonSpacesIn (remainder b bLength a aLength))
        ∣ absDiff (spacesIn (remainder a aLength b bLength))
          (spacesIn (remainder b bLength a aLength)) →
      spacesDiff a aLength b bLength = 0) := by
  rw [spacesDiff_eq a aLength b bLength ha hb]
  unfold scoreOf
  rw [if_neg hma, if_neg hmb, if_neg (Nat.pos_iff_ne_zero.mp htabs)]
  constructor
  · intro hdvd
    rw [if_pos (Nat.mod_eq_zero_of_dvd hdvd)]
    exact ⟨rfl, Nat.div_mul_cancel hdvd⟩
  · intro hndvd
    rw [if_neg (fun hmod => hndvd (Nat.dvd_of_mod_eq_zero hmod))]

/-- Witness of C10: `a` is two tabs, `b` is eight spaces; two tabs against eight spaces give
four spaces per tab. -/
theorem spacesDiff_tabs_differ_witness :
    spacesDiff [9, 9, 120] 2 [32, 32, 32, 32, 32, 32, 32, 32, 121] 8 = 4 :=
  ((spacesDiff_tabs_differ [9, 9, 120] 2 [32, 32, 32, 32, 32, 32, 32, 32, 121] 8 (by decide)
    (by decide) (by decide) (by decide) (by decide)).1 (by decide)).1.trans (by decide)

/-- Counterexample to C4 as stated: in the one-line document `x` the only content-bearing line
has an empty indentation, so no character of any indentation is anything but a tab; with
`defaultInsertSpaces = true` the verdict has `insertSpaces = true`. -/
theorem insertSpaces_tabs_only_counterexample :
    (∀ line ∈ [[120]], hasContent line = true → ∀ c ∈ indentationOf line, c = 9)
      ∧ (guessIndentation (LineSource.ofLines [[120]]) 4 true).insertSpaces ≠ false := by
  decide

/-- C4, amended: when the indentation of every content-bearing line consists of tab characters
only and at least one content-bearing line among the first 10,000 lines has a non-empty
indentation, `guessIndentation` returns `insertSpaces = false`, whatever the defaults. -/
theorem insertSpaces_tabs_only (lines : List (List Nat)) (defaultTabSize : Nat)
    (defaultInsertSpaces : Bool)
    (htabs : ∀ line ∈ lines, hasContent line = true → ∀ c ∈ indentationOf line, c = 9)
    (hex : ∃ line ∈ lines.take 10000, hasContent line = true ∧ indentationOf line ≠ []) :
    (guessIndentation (LineSource.ofLines lines) defaultTabSize defaultInsertSpaces).insertSpaces
      = false :=
  insertSpaces_of_tabs_only lines defaultTabSize defaultInsertSpaces htabs hex

/-- Witness of C4, amended: the document `a` / tab `b` / blank / tab tab `c` with
`defaultInsertSpaces = true`. -/
theorem insertSpaces_tabs_only_witness :
    (guessIndentation (LineSource.ofLines [[97], [9, 98], [], [9, 9, 99]]) 4 true).insertSpaces
      = false :=
  insertSpaces_tabs_only [[97], [9, 98], [], [9, 9, 99]] 4 true (by decide)
    ⟨[9, 98], by decide, by decide, by decide⟩

/-- C5: when the indentation of every content-bearing line consists of tab characters only,
`guessIndentation` returns `tabSize = defaultTabSize`: the score of any two such lines (and of
such a line with the empty line) is 0, and buckets 2, 4, 6 and 8 of the score array stay at 0. -/
theorem tabSize_tabs_only (lines : List (List Nat)) (defaultTabSize : Nat)
    (defaultInsertSpaces : Bool)
    (htabs : ∀ line ∈ lines, hasContent line = true → ∀ c ∈ indentationOf line, c = 9) :
    (guessIndentation (LineSource.ofLines lines) defaultTabSize defaultInsertSpaces).tabSize
        = defaultTabSize
      ∧ (∀ a ∈ [] :: lines, ∀ b ∈ [] :: lines, (a = [] ∨ hasContent a = true) →
          (b = [] ∨ hasContent b = true) →
          spacesDiff a (indentationOf a).length b (indentationOf b).length = 0)
      ∧ bucket (scanSource (LineSource.ofLines lines)) 2 = 0
      ∧ bucket (scanSource (LineSource.ofLines lines)) 4 = 0
      ∧ bucket (scanSource (LineSource.ofLines lines)) 6 = 0
      ∧ bucket (scanSource (LineSource.ofLines lines)) 8 = 0 := by
  have hb := buckets_of_tabs_only lines htabs
  have hind : ∀ a ∈ [] :: lines, (a = [] ∨ hasContent a = true) →
      spacesIn (a.take (indentationOf a).length) = 0 := by
    intro a ha hca
    rw [take_length_indentationOf]
    rcases hca with rfl | hca
    · rfl
    · rcases List.mem_cons.mp ha with rfl | ha
      · rfl
      · exact spacesIn_eq_zero_of_tabs _ (htabs a ha hca)
  refine ⟨?_, ?_, hb 2 (by decide), hb 4 (by decide), hb 6 (by decide), hb 8 (by decide)⟩
  · exact decideVerdict_tabSize_default _ _ _ _ (hb 2 (by decide)) (hb 4 (by decide))
      (hb 6 (by decide)) (hb 8 (by decide))
  · intro a ha b hb' hca hcb
    exact spacesDiff_zero_of_no_spaces _ _ _ _ (length_indentationOf_le a)
      (length_indentationOf_le b) (hind a ha hca) (hind b hb' hcb)

/-- Witness of C5: the document `a` / tab `b` / blank / tab tab `c` with `defaultTabSize = 3`. -/
theorem tabSize_tabs_only_witness :
    (guessIndentation (LineSource.ofLines [[97], [9, 98], [], [9, 9, 99]]) 3 true).tabSize = 3 :=
  (tabSize_tabs_only [[97], [9, 98], [], [9, 9, 99]] 3 true (by decide)).1

/-- Counterexample to C11 as stated: between the empty line and a line indented with twelve
spaces, with both lengths within the lines, `spacesDiff` returns 12, which is above 8. -/
theorem spacesDiff_bound_counterexample :
    0 ≤ ([] : List Nat).length ∧ 12 ≤ (codes "            x").length
      ∧ ¬ spacesDiff [] 0 (codes "            x") 12 ≤ 8 := by
  decide

/-- C11, amended: the value returned by `spacesDiff` is a natural number of at most
`max(aLength, bLength)`, which may exceed 8; `guessIndentation` counts a score only when it is
at most 8, so that for every line source the score array at the end of the scan still has
exactly its nine buckets 0 to 8, each of them holding a number (a score above 8 would have
extended the array and stored `NaN`). -/
theorem spacesDiff_bound (a : List Nat) (aLength : Nat) (b : List Nat) (bLength : Nat)
    (source : LineSource) :
    spacesDiff a aLength b bLength ≤ max aLength bLength
      ∧ ScoreArray (scanSource source).spacesDiffCount :=
  ⟨spacesDiff_le_max a aLength b bLength, scanSource_scoreArray source⟩

/-- C12: with `t` the number of content-bearing lines among the first `min(lineCount, 10000)`
whose indentation holds a tab and `s` the number of those whose indentation holds no tab and at
least two spaces, `guessIndentation` returns `insertSpaces = (t < s)` when `t ≠ s` and
`insertSpaces = defaultInsertSpaces` when `t = s`. -/
theorem insertSpaces_decision (lines : List (List Nat)) (defaultTabSize : Nat)
    (defaultInsertSpaces : Bool) :
    (guessIndentation (LineSource.ofLines lines) defaultTabSize defaultInsertSpaces).insertSpaces
      = if tabLines lines ≠ spaceLines lines then decide (tabLines lines < spaceLines lines)
        else defaultInsertSpaces := by
  rw [guessIndentation_eq_verdictOf]
  rfl

/-- C13: with `c[k]` the number of consecutive pairs of score `k` among the first
`min(lineCount, 10000)` lines and the bias 0 when the returned `insertSpaces` is true and
`0.1 * min(lineCount, 10000)` otherwise, the returned `tabSize` is the smallest candidate among
2, 4, 6, 8 whose count is the largest of the four when that largest count strictly exceeds the
bias, and `defaultTabSize` otherwise (both sides of the comparison are multiplied by ten). -/
theorem tabSize_decision (lines : List (List Nat)) (defaultTabSize : Nat)
    (defaultInsertSpaces : Bool) :
    (guessIndentation (LineSource.ofLines lines) defaultTabSize defaultInsertSpaces).tabSize
      = if (if (guessIndentation (LineSource.ofLines lines) defaultTabSize
                defaultInsertSpaces).insertSpaces = true then 0
            else min lines.length 10000) < 10 * bestCount (pairCount lines)
        then smallestBest (pairCount lines) else defaultTabSize := by
  rw [guessIndentation_eq_verdictOf]
  exact verdictOf_tabSize _ _ _ _ _ _

/-- C14: for every line source and all defaults, the `tabSize` returned by `guessIndentation`
is 2, 4, 6 or 8, or it is `defaultTabSize`. -/
theorem tabSize_allowed (source : LineSource) (defaultTabSize : Nat)
    (defaultInsertSpaces : Bool) :
    (guessIndentation source defaultTabSize defaultInsertSpaces).tabSize = 2
      ∨ (guessIndentation source defaultTabSize defaultInsertSpaces).tabSize = 4
      ∨ (guessIndentation source defaultTabSize defaultInsertSpaces).tabSize = 6
      ∨ (guessIndentation source defaultTabSize defaultInsertSpaces).tabSize = 8
      ∨ (guessIndentation source defaultTabSize defaultInsertSpaces).tabSize = defaultTabSize :=
  decideVerdict_tabSize_mem _ _ _ _

/-- Counterexample to C17 as stated: a document of 20 lines, `a`, then `b` indented with two
spaces, then 18 empty lines. The verdict has `insertSpaces = true`, no bucket among 2, 4, 6, 8
exceeds `0.1 * 20 = 2` (bucket 2 holds exactly 2), and yet `tabSize` is 2 and not the default
8: with `insertSpaces = true` the bias is 0. -/
theorem tabSize_bias_counterexample :
    (guessIndentation (LineSource.ofLines ([codes "a", codes "  b"] ++ List.replicate 18 []))
        8 false).insertSpaces = true
      ∧ (∀ k ∈ [2, 4, 6, 8],
          10 * bucket (scanSource (LineSource.ofLines
              ([codes "a", codes "  b"] ++ List.replicate 18 []))) k
            ≤ min (LineSource.ofLines
              ([codes "a", codes "  b"] ++ List.replicate 18 [])).getLineCount 10000)
      ∧ (guessIndentation (LineSource.ofLines ([codes "a", codes "  b"] ++ List.replicate 18 []))
        8 false).tabSize ≠ 8 := by
  decide

/-- C17, amended: the bias of `0.1 * linesScanned` applies when tabs are chosen, not spaces.
For every line source and all defaults: when `guessIndentation` returns `insertSpaces = false`,
the returned `tabSize` is the smallest candidate among 2, 4, 6, 8 with the largest bucket when
that bucket strictly exceeds `0.1 * min(lineCount, 10000)`, and `defaultTabSize` otherwise; when
it returns `insertSpaces = true` the bias is 0, so the returned `tabSize` is that candidate as
soon as its bucket is positive, and `defaultTabSize` otherwise. (Both sides of the comparison
with `0.1 * min(lineCount, 10000)` are multiplied by ten.) -/
theorem tabSize_bias (source : LineSource) (defaultTabSize : Nat) (defaultInsertSpaces : Bool) :
    (guessIndentation source defaultTabSize defaultInsertSpaces).tabSize
      = if (guessIndentation source defaultTabSize defaultInsertSpaces).insertSpaces = true then
          (if 0 < bestCount (bucket (scanSource source)) then
            smallestBest (bucket (scanSource source))
          else defaultTabSize)
        else
          (if min source.getLineCount 10000 < 10 * bestCount (bucket (scanSource source)) then
            smallestBest (bucket (scanSource source))
          else defaultTabSize) :=
  guessIndentation_tabSize_buckets source defaultTabSize defaultInsertSpaces

/-- C15: two documents with the same number of lines whose lines at each index are both
without content, or both content-bearing with the same leading run of spaces and tabs, get the
same verdict for the same defaults. -/
theorem guessIndentation_leading_whitespace (lines₁ lines₂ : List (List Nat))
    (defaultTabSize : Nat) (defaultInsertSpaces : Bool)
    (h : List.Forall₂ sameLeading lines₁ lines₂) :
    guessIndentation (LineSource.ofLines lines₁) defaultTabSize defaultInsertSpaces
      = guessIndentation (LineSource.ofLines lines₂) defaultTabSize defaultInsertSpaces :=
  guessIndentation_sameLeading lines₁ lines₂ defaultTabSize defaultInsertSpaces h

/-- Witness of C15: two four-line documents with the same indentation at each line and other
text after it; the third line is empty in one and made of a space and a tab in the other. -/
theorem guessIndentation_leading_whitespace_witness :
    guessIndentation
        (LineSource.ofLines [codes "a", codes "  bcd", codes "", codes "\tx"]) 4 true
      = guessIndentation
        (LineSource.ofLines [codes "zz", codes "  q", codes " \t", codes "\tyy y"]) 4 true :=
  guessIndentation_leading_whitespace [codes "a", codes "  bcd", codes "", codes "\tx"]
    [codes "zz", codes "  q", codes " \t", codes "\tyy y"] 4 true
    (List.Forall₂.cons (by decide) (List.Forall₂.cons (by decide)
      (List.Forall₂.cons (by decide) (List.Forall₂.cons (by decide) List.Forall₂.nil))))

/-- Counterexample to C16 as stated: the indentation prefix of `a` is a tab followed by a
space, so it holds both a tab and a space; `b` is indented with the same tab and space followed
by two more spaces; `spacesDiff` returns 2, not 0, because the mixed part is shared. -/
theorem spacesDiff_mixed_prefix_counterexample :
    (9 ∈ [9, 32, 120].take 2 ∧ 32 ∈ [9, 32, 120].take 2)
      ∧ spacesDiff [9, 32, 120] 2 [9, 32, 32, 32, 121] 4 ≠ 0 := by
  decide

/-- C16, amended: for every pair of lines in which, past the longest common prefix of the two
indentation prefixes, what is left of the indentation prefix of `a` or of `b` holds both a tab
and a space, `spacesDiff` returns 0. -/
theorem spacesDiff_mixed_prefix (a : List Nat) (aLength : Nat) (b : List Nat) (bLength : Nat)
    (ha : aLength ≤ a.length) (hb : bLength ≤ b.length)
    (hmix : (0 < tabsIn (remainder a aLength b bLength)
        ∧ 0 < spacesIn (remainder a aLength b bLength))
      ∨ (0 < tabsIn (remainder b bLength a aLength)
        ∧ 0 < spacesIn (remainder b bLength a aLength))) :
    spacesDiff a aLength b bLength = 0 := by
  have hta := tabsIn_le_nonSpacesIn (remainder a aLength b bLength)
  have htb := tabsIn_le_nonSpacesIn (remainder b bLength a aLength)
  apply spacesDiff_eq_zero_of_mixed a aLength b bLength ha hb
  rcases hmix with ⟨h₁, h₂⟩ | ⟨h₁, h₂⟩
  · exact Or.inl ⟨h₂, by omega⟩
  · exact Or.inr ⟨h₂, by omega⟩

/-- Witness of C16, amended: `a` is indented with four spaces, `b` with a tab and a space. -/
theorem spacesDiff_mixed_prefix_witness :
    spacesDiff (codes "    x") 4 (codes "\t y") 2 = 0 :=
  spacesDiff_mixed_prefix (codes "    x") 4 (codes "\t y") 2 (by decide) (by decide) (by decide)

/-- C18: when `d'` is `d` with lines without content inserted and `d'` has at most 10,000
lines, `guessIndentation` returns the same `insertSpaces` on both, and the same `tabSize` as
well whenever that `insertSpaces` is true. -/
theorem guessIndentation_blank_lines (d d' : List (List Nat)) (defaultTabSize : Nat)
    (defaultInsertSpaces : Bool) (h : BlankInserted d d') (hlen : d'.length ≤ 10000) :
    (guessIndentation (LineSource.ofLines d') defaultTabSize defaultInsertSpaces).insertSpaces
        = (guessIndentation (LineSource.ofLines d) defaultTabSize
            defaultInsertSpaces).insertSpaces
      ∧ ((guessIndentation (LineSource.ofLines d) defaultTabSize
            defaultInsertSpaces).insertSpaces = true →
          (guessIndentation (LineSource.ofLines d') defaultTabSize defaultInsertSpaces).tabSize
            = (guessIndentation (LineSource.ofLines d) defaultTabSize
                defaultInsertSpaces).tabSize) :=
  guessIndentation_blankInserted d d' defaultTabSize defaultInsertSpaces h hlen

/-- Witness of C18: the document `a` / two spaces `b` / `c`, and the same document with an empty
line in front and a line of a tab and a space before `c`; both get `insertSpaces = true` and
`tabSize = 2`. -/
theorem guessIndentation_blank_lines_witness :
    (guessIndentation (LineSource.ofLines
        [codes "", codes "a", codes "  b", codes "\t ", codes "c"]) 8 false).insertSpaces
      = (guessIndentation (LineSource.ofLines
        [codes "a", codes "  b", codes "c"]) 8 false).insertSpaces
    ∧ (guessIndentation (LineSource.ofLines
        [codes "", codes "a", codes "  b", codes "\t ", codes "c"]) 8 false).tabSize
      = (guessIndentation (LineSource.ofLines
        [codes "a", codes "  b", codes "c"]) 8 false).tabSize :=
  ⟨(guessIndentation_blank_lines [codes "a", codes "  b", codes "c"]
      [codes "", codes "a", codes "  b", codes "\t ", codes "c"] 8 false
      (.insert _ (by decide) (.keep _ (.keep _ (.insert _ (by decide) (.keep _ .nil)))))
      (by decide)).1,
   (guessIndentation_blank_lines [codes "a", codes "  b", codes "c"]
      [codes "", codes "a", codes "  b", codes "\t ", codes "c"] 8 false
      (.insert _ (by decide) (.keep _ (.keep _ (.insert _ (by decide) (.keep _ .nil)))))
      (by decide)).2 (by decide)⟩

/-- C19: indentation that two lines share does not change their score: for every string `p`,
`spacesDiff(p ++ a, |p| + aLength, p ++ b, |p| + bLength)` equals
`spacesDiff(a, aLength, b, bLength)`; and the score of a line with itself is 0. -/
theorem spacesDiff_shared_prefix (p a : List Nat) (aLength : Nat) (b : List Nat)
    (bLength : Nat) (ha : aLength ≤ a.length) (hb : bLength ≤ b.length) :
    spacesDiff (p ++ a) (p.length + aLength) (p ++ b) (p.length + bLength)
        = spacesDiff a aLength b bLength
      ∧ spacesDiff a aLength a aLength = 0 :=
  ⟨spacesDiff_append_left p a aLength b bLength ha hb, spacesDiff_self a aLength ha⟩

/-- Witness of C19: the shared indentation is a space and a tab; past it `a` has two more
spaces and `b` nothing. -/
theorem spacesDiff_shared_prefix_witness :
    spacesDiff ([32, 9] ++ [32, 32, 120]) (([32, 9] : List Nat).length + 2) ([32, 9] ++ [121])
        (([32, 9] : List Nat).length + 0)
        = spacesDiff [32, 32, 120] 2 [121] 0
      ∧ spacesDiff [32, 32, 120] 2 [32, 32, 120] 2 = 0 :=
  spacesDiff_shared_prefix [32, 9] [32, 32, 120] 2 [121] 0 (by decide) (by decide)

/-- C20: a document of at most 10,000 lines and the document with its lines in reverse order
get the same verdict, whatever the defaults. -/
theorem guessIndentation_reverse_order (lines : List (List Nat)) (defaultTabSize : Nat)
    (defaultInsertSpaces : Bool) (hlen : lines.length ≤ 10000) :
    guessIndentation (LineSource.ofLines lines.reverse) defaultTabSize defaultInsertSpaces
      = guessIndentation (LineSource.ofLines lines) defaultTabSize defaultInsertSpaces :=
  guessIndentation_reverse lines defaultTabSize defaultInsertSpaces hlen

/-- Witness of C20: the three-line function document read backwards. -/
theorem guessIndentation_reverse_order_witness :
    guessIndentation (LineSource.ofLines
        [codes "function f() \x7b", codes "    return 1;", codes "\x7d"].reverse) 3 false
      = guessIndentation (LineSource.ofLines
        [codes "function f() \x7b", codes "    return 1;", codes "\x7d"]) 3 false :=
  guessIndentation_reverse_order
    [codes "function f() \x7b", codes "    return 1;", codes "\x7d"] 3 false (by decide)

end IndentationGuesser
